import Mathlib

/-!
Verification development for `scripts/generate_intake_form.py`: the spec
validation and placeholder-resolution pipeline of the Menyentuh intake-form
generator.  JSON documents are embedded as `JVal`; the validator
(`validate_spec`), the placeholder planner (the placeholder bookkeeping of
`build_base_document`), marker derivation (`marker_for`), the COM control
resolver's error aggregation (`apply_com_controls`) and the plain-text
fallback (`apply_plain_fallback` over `iter_all_paragraphs`) are translated
into executable Lean definitions, and the behavioural claims about them are
proved below the definitions.
-/

/-- A JSON value as produced by `json.loads`.  Numbers are modelled as
rationals (enough to decide the sign comparisons the validator performs);
objects are association lists with unique keys, which is what `json.loads`
returns (later duplicates overwrite earlier ones while parsing). -/
inductive JVal where
  | null
  | bool (b : Bool)
  | num (q : ℚ)
  | str (s : String)
  | arr (xs : List JVal)
  | obj (kvs : List (String × JVal))

/-- Key lookup in an association list, first match wins (the lists stand for
Python dicts, whose keys are unique). -/
def jLookup : List (String × JVal) → String → Option JVal
  | [], _ => none
  | (k, v) :: rest, key => if k = key then some v else jLookup rest key

/-- `d[k]` / `d.get(k)` on an object, `none` on any other value. -/
def JVal.lookup (v : JVal) (key : String) : Option JVal :=
  match v with
  | .obj kvs => jLookup kvs key
  | _ => none

/-- Python `key in d`. -/
def JVal.hasKey (v : JVal) (key : String) : Bool :=
  (v.lookup key).isSome

/-- Python `d.get(key, default)`. -/
def JVal.lookupD (v : JVal) (key : String) (d : JVal) : JVal :=
  (v.lookup key).getD d

/-- Python `v == s` for a string literal `s` (true only on equal strings). -/
def JVal.isStrEq (v : JVal) (s : String) : Bool :=
  match v with
  | .str t => t = s
  | _ => false

/-- The characters Python `str.strip()` removes (ASCII whitespace). -/
def pyWSChar (c : Char) : Bool :=
  c == ' ' || c == '\t' || c == '\n' || c == '\r' || c == '\x0b' || c == '\x0c'

/-- Python `s.strip()`. -/
def pyStrip (s : String) : String :=
  String.mk (((s.data.dropWhile pyWSChar).reverse.dropWhile pyWSChar).reverse)

/-- Truthiness of `v.strip()` guarded by `isinstance(v, str)`: the value is a
string containing at least one non-whitespace character.  This is the
validator's pervasive `isinstance(x, str) and x.strip()` test. -/
def isNonemptyStr (v : JVal) : Bool :=
  match v with
  | .str s => s.data.any (fun c => !pyWSChar c)
  | _ => false

/-- Python `isinstance(v, str)`. -/
def isJStr (v : JVal) : Bool :=
  match v with
  | .str _ => true
  | _ => false

/-- Python `isinstance(v, bool)`. -/
def isJBool (v : JVal) : Bool :=
  match v with
  | .bool _ => true
  | _ => false

/-- String conversion modelling Python `str()` exactly on strings, `None` and
booleans.  Numeric and container rendering is simplified (a rational is
printed with `toString`, containers as constant bracketed stubs); the
validator only ever asks whether the result is a six-digit hex colour, and
none of the simplified renderings is one, exactly as in Python. -/
def pyStr : JVal → String
  | .null => "None"
  | .bool true => "True"
  | .bool false => "False"
  | .num q => toString q
  | .str s => s
  | .arr _ => "[...]"
  | .obj _ => "\x7b...\x7d"

/-- Source `is_hex_color`: strip, drop one leading `#`, then exactly six hex
digits. -/
def isHexColor (value : String) : Bool :=
  let core :=
    match (pyStrip value).data with
    | '#' :: rest => rest
    | l => l
  core.length == 6 && core.all (fun c => "0123456789abcdefABCDEF".data.contains c)

/-- Source `TOP_LEVEL_REQUIRED_KEYS`. -/
def topLevelKeys : List String := ["metadata", "branding", "document_layout", "sections"]

/-- Source `FIELD_REQUIRED_KEYS`. -/
def fieldReqKeys : List String := ["id", "label", "type", "required", "help_text"]

/-- Source `ALLOWED_FIELD_TYPES` (a set; listed here in source order). -/
def allowedFieldTypes : List String :=
  ["text_short", "text_long", "checkbox", "checkbox_group", "dropdown", "date",
   "signature_line", "info_block"]

/-- `field_type not in ALLOWED_FIELD_TYPES` is false exactly for these. -/
def isAllowedType (v : JVal) : Bool :=
  match v with
  | .str s => allowedFieldTypes.contains s
  | _ => false

/-- Error-message builders, verbatim from the source. -/
def missingTopMsg (k : String) : String :=
  "Ontbrekende top-level key: '" ++ k ++ "'."

def dupFieldMsg (x : String) : String :=
  "Dubbele field id gevonden: '" ++ x ++ "'."

def dupOptionMsg (x : String) : String :=
  "Dubbele option id gevonden: '" ++ x ++ "'."

def marginMsg : String :=
  "'document_layout.margin_cm' moet een positief getal zijn."

/-- `sections[i]` with 1-based `i`, as in `enumerate(sections, start=1)`. -/
def secPfx (i : Nat) : String := "sections[" ++ toString i ++ "]"

/-- `…fields[j]` with 1-based `j`. -/
def fldPfx (sp : String) (j : Nat) : String := sp ++ ".fields[" ++ toString j ++ "]"

/-- `…options[k]` with 1-based `k`. -/
def optPfx (fp : String) (k : Nat) : String := fp ++ ".options[" ++ toString k ++ "]"

def typeMsg (fp : String) (ftype : JVal) : String :=
  fp ++ ".type '" ++ pyStr ftype ++
    "' is ongeldig. Toegestaan: ['checkbox', 'checkbox_group', 'date', 'dropdown', 'info_block', 'signature_line', 'text_long', 'text_short']."

/-- The four type checks on the top-level values (source lines 114-121), in
source order. -/
def topTypeErrs (metadata branding layout sections : JVal) : List String :=
  (match metadata with
   | .obj _ => []
   | _ => ["'metadata' moet een object zijn."]) ++
  (match branding with
   | .obj _ => []
   | _ => ["'branding' moet een object zijn."]) ++
  (match layout with
   | .obj _ => []
   | _ => ["'document_layout' moet een object zijn."]) ++
  (match sections with
   | .arr (_ :: _) => []
   | _ => ["'sections' moet een niet-lege lijst zijn."])

/-- The `margin_cm` check (source lines 123-126): runs only when the layout is
a dict; the absent key defaults to `2.0`; the error fires when the value is
not an `int`/`float` (Python booleans included, as `bool` subclasses `int`)
or is `<= 0` (with `True` counting as 1 and `False` as 0). -/
def marginErrs (layout : JVal) : List String :=
  match layout with
  | .obj _ =>
    match layout.lookupD "margin_cm" (.num 2) with
    | .num q => if q ≤ 0 then [marginMsg] else []
    | .bool b => if b then [] else [marginMsg]
    | _ => [marginMsg]
  | _ => []

/-- One of the three `branding` string checks (source lines 138-143), e.g.
`not isinstance(branding.get(key, ""), str) or not branding[key]`: when the
value under `key` is a non-string the first disjunct already fails and the
message is appended; when it is a string the second disjunct evaluates
`branding[key]`, which raises `KeyError` (`.error key`) if the key is
absent (the `get` default `""` is a string, so the first disjunct cannot
short-circuit the access). -/
def brandingFontCheck (branding : JVal) (key msg : String) : Except String (List String) :=
  match branding.lookupD key (.str "") with
  | .str s =>
    if branding.hasKey key then
      if s = "" then .ok [msg] else .ok []
    else .error key
  | _ => .ok [msg]

/-- The branding block (source lines 128-143): runs only when branding is a
dict.  The five colour checks use `branding.get(key, "")` and cannot raise;
the three string checks read `branding[key]` after the `or`, so a branding
dict that lacks `heading_font`, `body_font` or `logo_path` raises a Python
`KeyError` (modelled as `.error key`), aborting validation entirely. -/
def brandingChecks (branding : JVal) : Except String (List String) :=
  match branding with
  | .obj _ =>
    let colorErrs :=
      (["primary_color", "secondary_color", "accent_color", "surface_color",
        "text_color"].filter
        (fun ck => !(branding.hasKey ck && isHexColor (pyStr (branding.lookupD ck (.str "")))))).map
        (fun ck => "'branding." ++ ck ++ "' moet een hex kleur zijn, bv. #17372c.")
    match brandingFontCheck branding "heading_font"
        "'branding.heading_font' moet een niet-lege string zijn." with
    | .error k => .error k
    | .ok e1 =>
      match brandingFontCheck branding "body_font"
          "'branding.body_font' moet een niet-lege string zijn." with
      | .error k => .error k
      | .ok e2 =>
        match brandingFontCheck branding "logo_path"
            "'branding.logo_path' moet een niet-lege string zijn." with
        | .error k => .error k
        | .ok e3 => .ok (colorErrs ++ e1 ++ e2 ++ e3)
  | _ => .ok []

/-- The `dropdown` options check (source lines 209-214). -/
def dropdownErrs (fp : String) (opts : Option JVal) : List String :=
  match opts with
  | some (.arr (o :: os)) =>
    if (o :: os).all isNonemptyStr then []
    else [fp ++ ".options mag alleen niet-lege strings bevatten."]
  | _ => [fp ++ ".options moet een niet-lege lijst zijn voor dropdown."]

/-- The `checkbox_group` option loop (source lines 221-239): each option is
checked for shape, its id is checked against the shared `seen_ids` set (the
`seen` argument, threaded through), and its label is checked.  Returns the
accumulated errors and the updated `seen_ids`. -/
def valOpts (fp : String) : Nat → List String → List JVal → List String × List String
  | _, seen, [] => ([], seen)
  | k, seen, ov :: rest =>
    let op := optPfx fp k
    match ov with
    | .obj _ =>
      if ov.hasKey "id" && ov.hasKey "label" then
        let oid := ov.lookupD "id" .null
        let olab := ov.lookupD "label" .null
        if isNonemptyStr oid then
          let oidS := pyStr oid
          let dupE := if oidS ∈ seen then [dupOptionMsg oidS] else []
          let seen1 := if oidS ∈ seen then seen else seen ++ [oidS]
          let labE :=
            if isNonemptyStr olab then []
            else [op ++ ".label moet een niet-lege string zijn."]
          let rec2 := valOpts fp (k + 1) seen1 rest
          (dupE ++ labE ++ rec2.1, rec2.2)
        else
          let rec2 := valOpts fp (k + 1) seen rest
          ([op ++ ".id moet een niet-lege string zijn."] ++ rec2.1, rec2.2)
      else
        let rec2 := valOpts fp (k + 1) seen rest
        ([op ++ " mist 'id' en/of 'label'."] ++ rec2.1, rec2.2)
    | _ =>
      let rec2 := valOpts fp (k + 1) seen rest
      ([op ++ " moet een object zijn."] ++ rec2.1, rec2.2)

/-- A single field (source lines 168-239 body): shape check, missing-key
errors with early `continue`, id check with early `continue`, duplicate-id
check against the shared set, then the type / required / label / help_text
checks and the type-specific option checks. -/
def valField (fp : String) (seen : List String) (fv : JVal) : List String × List String :=
  match fv with
  | .obj _ =>
    if fieldReqKeys.all (fun k => fv.hasKey k) then
      let fid := fv.lookupD "id" .null
      let ftype := fv.lookupD "type" .null
      let req := fv.lookupD "required" .null
      let ht := fv.lookupD "help_text" .null
      let lab := fv.lookupD "label" .null
      if isNonemptyStr fid then
        let fidS := pyStr fid
        let dupE := if fidS ∈ seen then [dupFieldMsg fidS] else []
        let seen1 := if fidS ∈ seen then seen else seen ++ [fidS]
        let typeE := if isAllowedType ftype then [] else [typeMsg fp ftype]
        let reqE := if isJBool req then [] else [fp ++ ".required moet true of false zijn."]
        let labE :=
          if isNonemptyStr lab then []
          else [fp ++ ".label moet een niet-lege string zijn."]
        let htE :=
          if isJStr ht then []
          else [fp ++ ".help_text moet een string zijn (leeg is toegestaan)."]
        let ddE := if ftype.isStrEq "dropdown" then dropdownErrs fp (fv.lookup "options") else []
        if ftype.isStrEq "checkbox_group" then
          match fv.lookup "options" with
          | some (.arr (o :: os)) =>
            let rec2 := valOpts fp 1 seen1 (o :: os)
            (dupE ++ typeE ++ reqE ++ labE ++ htE ++ ddE ++ rec2.1, rec2.2)
          | _ =>
            (dupE ++ typeE ++ reqE ++ labE ++ htE ++ ddE ++
              [fp ++ ".options moet een niet-lege lijst zijn voor checkbox_group."], seen1)
        else
          (dupE ++ typeE ++ reqE ++ labE ++ htE ++ ddE, seen1)
      else
        ([fp ++ ".id moet een niet-lege string zijn."], seen)
    else
      ((fieldReqKeys.filter (fun k => !fv.hasKey k)).map
        (fun k => fp ++ ": ontbrekende key '" ++ k ++ "'."), seen)
  | _ => ([fp ++ " moet een object zijn."], seen)

/-- The field loop of one section, `enumerate(fields, start=j)`. -/
def valFields (sp : String) : Nat → List String → List JVal → List String × List String
  | _, seen, [] => ([], seen)
  | j, seen, fv :: rest =>
    let r1 := valField (fldPfx sp j) seen fv
    let r2 := valFields sp (j + 1) r1.2 rest
    (r1.1 ++ r2.1, r2.2)

/-- A single section (source lines 148-166 plus its field loop). -/
def valSection (i : Nat) (seen : List String) (sv : JVal) : List String × List String :=
  let sp := secPfx i
  match sv with
  | .obj _ =>
    let missing :=
      (["id", "title", "fields"].filter (fun k => !sv.hasKey k)).map
        (fun k => sp ++ ": ontbrekende key '" ++ k ++ "'.")
    let idE :=
      if isNonemptyStr (sv.lookupD "id" .null) then []
      else [sp ++ ".id moet een niet-lege string zijn."]
    let titleE :=
      if isNonemptyStr (sv.lookupD "title" .null) then []
      else [sp ++ ".title moet een niet-lege string zijn."]
    match sv.lookup "fields" with
    | some (.arr (f :: fs)) =>
      let r := valFields sp 1 seen (f :: fs)
      (missing ++ idE ++ titleE ++ r.1, r.2)
    | _ =>
      (missing ++ idE ++ titleE ++ [sp ++ ".fields moet een niet-lege lijst zijn."], seen)
  | _ => ([sp ++ " moet een object zijn."], seen)

/-- The section loop, `enumerate(sections, start=1)`. -/
def valSections : Nat → List String → List JVal → List String × List String
  | _, seen, [] => ([], seen)
  | i, seen, sv :: rest =>
    let r1 := valSection i seen sv
    let r2 := valSections (i + 1) r1.2 rest
    (r1.1 ++ r2.1, r2.2)

/-- Outcome of `validate_spec`: either the aggregated `SpecValidationError`
message list (`vErrors`, joined with newlines in Python before raising) or an
uncaught Python `KeyError` escaping from the branding block (`keyErr`). -/
inductive VError where
  | vErrors (msgs : List String)
  | keyErr (key : String)
deriving DecidableEq

/-- Source `validate_spec`: root-shape check, top-level-key presence with an
early aggregated raise, then the type checks, margin check, branding block
(which can raise `KeyError`), and the section/field/option pass sharing one
`seen_ids` set; all deep errors are aggregated and raised together. -/
def validateSpec (spec : JVal) : Except VError Unit :=
  match spec with
  | .obj _ =>
    let missingTop := (topLevelKeys.filter (fun k => !spec.hasKey k)).map missingTopMsg
    if missingTop = [] then
      let metadata := spec.lookupD "metadata" .null
      let branding := spec.lookupD "branding" .null
      let layout := spec.lookupD "document_layout" .null
      let sections := spec.lookupD "sections" .null
      match brandingChecks branding with
      | .error k => .error (.keyErr k)
      | .ok bes =>
        let sErrs :=
          match sections with
          | .arr ss => (valSections 1 [] ss).1
          | _ => []
        let allErrs :=
          topTypeErrs metadata branding layout sections ++ marginErrs layout ++ bes ++ sErrs
        if allErrs = [] then .ok () else .error (.vErrors allErrs)
    else .error (.vErrors missingTop)
  | _ => .error (.vErrors ["Spec-root moet een JSON-object zijn."])

/-! ## Id occurrences reaching the shared uniqueness check

`idOccurrences` lists, in document order, exactly the id strings that the
validator tests against the shared `seen_ids` set: field ids of fields that
are dicts, have all five required keys and a non-empty string id (fields
failing those checks `continue` before the uniqueness check), followed by the
option ids of a `checkbox_group` field whose `options` value is a non-empty
list (options that are dicts with both keys and a non-empty string id). -/

def optOccs : List JVal → List String
  | [] => []
  | ov :: rest =>
    (match ov with
     | .obj _ =>
       if ov.hasKey "id" && ov.hasKey "label" then
         if isNonemptyStr (ov.lookupD "id" .null) then [pyStr (ov.lookupD "id" .null)] else []
       else []
     | _ => []) ++ optOccs rest

def fieldOccs (fv : JVal) : List String :=
  match fv with
  | .obj _ =>
    if fieldReqKeys.all (fun k => fv.hasKey k) then
      if isNonemptyStr (fv.lookupD "id" .null) then
        pyStr (fv.lookupD "id" .null) ::
          (if (fv.lookupD "type" .null).isStrEq "checkbox_group" then
            match fv.lookup "options" with
            | some (.arr (o :: os)) => optOccs (o :: os)
            | _ => []
          else [])
      else []
    else []
  | _ => []

def fieldsOccs : List JVal → List String
  | [] => []
  | fv :: rest => fieldOccs fv ++ fieldsOccs rest

def sectionOccs (sv : JVal) : List String :=
  match sv with
  | .obj _ =>
    match sv.lookup "fields" with
    | some (.arr (f :: fs)) => fieldsOccs (f :: fs)
    | _ => []
  | _ => []

def sectionsOccs : List JVal → List String
  | [] => []
  | sv :: rest => sectionOccs sv ++ sectionsOccs rest

def idOccurrences (spec : JVal) : List String :=
  match spec with
  | .obj _ =>
    if topLevelKeys.all (fun k => spec.hasKey k) then
      match spec.lookupD "sections" .null with
      | .arr ss => sectionsOccs ss
      | _ => []
    else []
  | _ => []

/-! ## Marker derivation -/

/-- Source `marker_for`. -/
def markerFor (field_id : String) : String := "[[FIELD:" ++ field_id ++ "]]"

/-- Strips an expected leading character sequence, `none` on mismatch. -/
def stripPre : List Char → List Char → Option (List Char)
  | [], xs => some xs
  | _ :: _, [] => none
  | p :: ps, x :: xs => if x = p then stripPre ps xs else none

/-- Strips an expected trailing character sequence, `none` on mismatch. -/
def stripSuf (suf xs : List Char) : Option (List Char) :=
  (stripPre suf.reverse xs.reverse).map List.reverse

/-- Inverse of `markerFor`: recovers the id from a well-formed marker. -/
def idOfMarker (s : String) : Option String :=
  match stripPre "[[FIELD:".data s.data with
  | none => none
  | some rest => (stripSuf "]]".data rest).map String.mk

/-! ## Placeholder planning (the bookkeeping part of `build_base_document`) -/

/-- Source dataclass `PlaceholderSpec`. -/
structure PlaceholderSpec where
  marker : String
  field_type : String
  field_id : String
  label : String
  required : Bool
  options : List String := []
deriving DecidableEq

/-- Python truthiness, as applied by `bool(field_spec["required"])`. -/
def pyTruthy : JVal → Bool
  | .null => false
  | .bool b => b
  | .num q => q != 0
  | .str s => s != ""
  | .arr xs => !xs.isEmpty
  | .obj kvs => !kvs.isEmpty

/-- The list behind a JSON value (`[]` on non-lists; the planner only reads
list-valued keys that validation has already vouched for). -/
def asArrD : JVal → List JVal
  | .arr xs => xs
  | _ => []

/-- The option loop of the `checkbox_group` branch (source lines 558-574): one
placeholder of type `checkbox` per option, appended in order, each carrying
the option's id and label and the parent field's `required`.  `pyStr` is the
identity on the string values that a validated spec guarantees here. -/
def planOpts (req : Bool) : List JVal → List PlaceholderSpec → List PlaceholderSpec
  | [], acc => acc
  | ov :: rest, acc =>
    let oid := pyStr (ov.lookupD "id" .null)
    let olab := pyStr (ov.lookupD "label" .null)
    planOpts req rest (acc ++ [⟨markerFor oid, "checkbox", oid, olab, req, []⟩])

/-- One field of `build_base_document`'s loop (source lines 533-624), reduced
to its placeholder effect: `info_block` appends nothing, `checkbox_group`
appends one checkbox placeholder per option, `checkbox` appends a single
placeholder with the default empty options, and every other type appends a
single placeholder carrying `[str(o) for o in field_spec.get("options", [])]`. -/
def planField (fv : JVal) (acc : List PlaceholderSpec) : List PlaceholderSpec :=
  let ftype := fv.lookupD "type" .null
  let fid := pyStr (fv.lookupD "id" .null)
  let lab := pyStr (fv.lookupD "label" .null)
  let req := pyTruthy (fv.lookupD "required" .null)
  if ftype.isStrEq "info_block" then acc
  else if ftype.isStrEq "checkbox_group" then
    planOpts req (asArrD (fv.lookupD "options" .null)) acc
  else if ftype.isStrEq "checkbox" then
    acc ++ [⟨markerFor fid, pyStr ftype, fid, lab, req, []⟩]
  else
    acc ++ [⟨markerFor fid, pyStr ftype, fid, lab, req,
      (asArrD (fv.lookupD "options" .null)).map pyStr⟩]

def planFields : List JVal → List PlaceholderSpec → List PlaceholderSpec
  | [], acc => acc
  | fv :: rest, acc => planFields rest (planField fv acc)

def planSections : List JVal → List PlaceholderSpec → List PlaceholderSpec
  | [], acc => acc
  | sv :: rest, acc => planSections rest (planFields (asArrD (sv.lookupD "fields" .null)) acc)

/-- The ordered placeholder list returned by `build_base_document`. -/
def planPlaceholders (spec : JVal) : List PlaceholderSpec :=
  planSections (asArrD (spec.lookupD "sections" .null)) []

/-- A branding object satisfying every branding rule. -/
def brandingOkExample : JVal :=
  .obj [("primary_color", .str "#17372c"), ("secondary_color", .str "#2d5647"),
        ("accent_color", .str "#c99642"), ("surface_color", .str "#f3ede2"),
        ("text_color", .str "#1f332c"), ("heading_font", .str "Georgia"),
        ("body_font", .str "Calibri"), ("logo_path", .str "logo.png")]

/-- A fully valid specification exercising `text_short`, `checkbox_group`
and `info_block`. -/
def specPlanExample : JVal :=
  .obj [("metadata", .obj []), ("branding", brandingOkExample),
        ("document_layout", .obj []),
        ("sections", .arr [
          .obj [("id", .str "s1"), ("title", .str "Sectie"),
                ("fields", .arr [
                  .obj [("id", .str "naam"), ("label", .str "Naam"),
                        ("type", .str "text_short"), ("required", .bool true),
                        ("help_text", .str "")],
                  .obj [("id", .str "symptomen"), ("label", .str "Symptomen"),
                        ("type", .str "checkbox_group"), ("required", .bool false),
                        ("help_text", .str ""),
                        ("options", .arr [
                          .obj [("id", .str "pijn"), ("label", .str "Pijn")],
                          .obj [("id", .str "moeheid"), ("label", .str "Moeheid")]])],
                  .obj [("id", .str "info1"), ("label", .str "Toelichting"),
                        ("type", .str "info_block"), ("required", .bool false),
                        ("help_text", .str "x")]])]])]

/-- A `checkbox` field that also declares `options` — validation permits
this, since the options rules apply only to `dropdown` and
`checkbox_group`. -/
def fieldCheckboxOpts : JVal :=
  .obj [("id", .str "c1"), ("label", .str "Check"), ("type", .str "checkbox"),
        ("required", .bool true), ("help_text", .str ""),
        ("options", .arr [.str "x"])]

/-- A valid specification containing `fieldCheckboxOpts`. -/
def specCheckboxOpts : JVal :=
  .obj [("metadata", .obj []), ("branding", brandingOkExample),
        ("document_layout", .obj []),
        ("sections", .arr [
          .obj [("id", .str "s1"), ("title", .str "T"),
                ("fields", .arr [fieldCheckboxOpts])]])]

/-- Shape guard used to state C6: the field is a dict holding all five of
`id`, `label`, `type`, `required`, `help_text`. -/
def fieldShapeOk (fv : JVal) : Bool :=
  match fv with
  | .obj _ => fieldReqKeys.all (fun k => fv.hasKey k)
  | _ => false

/-- The duplicate-id contribution of a well-shaped field with a valid id. -/
def fieldDupErrs (seen : List String) (fv : JVal) : List String :=
  if pyStr (fv.lookupD "id" .null) ∈ seen then [dupFieldMsg (pyStr (fv.lookupD "id" .null))]
  else []

/-- The trailing `checkbox_group` contribution of a well-shaped field with a
valid id: the option-loop errors when `options` is a non-empty list, the
non-empty-list error otherwise, nothing for other types. -/
def fieldTailErrs (fp : String) (seen : List String) (fv : JVal) : List String :=
  if (fv.lookupD "type" .null).isStrEq "checkbox_group" then
    match fv.lookup "options" with
    | some (.arr (o :: os)) =>
      (valOpts fp 1
        (if pyStr (fv.lookupD "id" .null) ∈ seen then seen
         else seen ++ [pyStr (fv.lookupD "id" .null)]) (o :: os)).1
    | _ => [fp ++ ".options moet een niet-lege lijst zijn voor checkbox_group."]
  else []

/-- A specification whose single field has a whitespace-only id and an
invalid type (all five keys present, branding fully valid). -/
def specEmptyIdBadType : JVal :=
  .obj [("metadata", .obj []), ("branding", brandingOkExample),
        ("document_layout", .obj []),
        ("sections", .arr [
          .obj [("id", .str "s1"), ("title", .str "T"),
                ("fields", .arr [
                  .obj [("id", .str " "), ("label", .str "L"), ("type", .str "bogus"),
                        ("required", .bool true), ("help_text", .str "")]])]])]

/-- Does the branding block complete without a Python `KeyError`? -/
def brandingOk (b : JVal) : Bool :=
  match brandingChecks b with
  | .ok _ => true
  | .error _ => false

/-- The message list carried by a `SpecValidationError` outcome (`[]` on
success or on a `KeyError`). -/
def vErrorMsgs : Except VError Unit → List String
  | .error (.vErrors msgs) => msgs
  | _ => []

/-- Did validation raise a `SpecValidationError` (as opposed to succeeding
or crashing with a `KeyError`)? -/
def isSpecErrs : Except VError Unit → Bool
  | .error (.vErrors _) => true
  | _ => false

/-- A specification with a duplicated field id `"x"` and an otherwise empty
(but dict-shaped) branding block. -/
def specDupKeyErr : JVal :=
  .obj [("metadata", .obj []), ("branding", .obj []), ("document_layout", .obj []),
        ("sections", .arr [
          .obj [("id", .str "s1"), ("title", .str "T"),
                ("fields", .arr [
                  .obj [("id", .str "x"), ("label", .str "A"), ("type", .str "text_short"),
                        ("required", .bool true), ("help_text", .str "")],
                  .obj [("id", .str "x"), ("label", .str "B"), ("type", .str "text_short"),
                        ("required", .bool true), ("help_text", .str "")]])]])]

/-- The same duplicated-id specification with a fully valid branding block. -/
def specDupOk : JVal :=
  .obj [("metadata", .obj []), ("branding", brandingOkExample), ("document_layout", .obj []),
        ("sections", .arr [
          .obj [("id", .str "s1"), ("title", .str "T"),
                ("fields", .arr [
                  .obj [("id", .str "x"), ("label", .str "A"), ("type", .str "text_short"),
                        ("required", .bool true), ("help_text", .str "")],
                  .obj [("id", .str "x"), ("label", .str "B"), ("type", .str "text_short"),
                        ("required", .bool true), ("help_text", .str "")]])]])]

/-! ## COM control resolution (`apply_com_controls`)

The Word COM automation channel is external (spec §6); a run is modelled by
the list of placeholders paired with the match count that
`replace_marker_with_control` reports for each (the number of times the
forward search found the marker).  `.ok ()` models the `SaveAs2` call that
writes the output artifact; `.error msgs` models the aggregated `RuntimeError`
raised before any save. -/

def comNotFoundMsg (marker : String) : String :=
  "Marker niet gevonden in document: " ++ marker

def comMultiMsg (count : Nat) (marker : String) : String :=
  "Marker kwam meerdere keren voor (" ++ toString count ++ "x): " ++ marker

/-- The error-accumulation loop of `apply_com_controls` (source lines
751-760): count 0 and count > 1 each append one descriptive error; the loop
never stops early. -/
def comErrors : List (PlaceholderSpec × Nat) → List String
  | [] => []
  | (p, c) :: rest =>
    (if c = 0 then [comNotFoundMsg p.marker]
     else if 1 < c then [comMultiMsg c p.marker]
     else []) ++ comErrors rest

/-- Source lines 762-769: raise the aggregated failure when any error
accumulated, otherwise save the document. -/
def applyComControls (steps : List (PlaceholderSpec × Nat)) : Except (List String) Unit :=
  if comErrors steps = [] then .ok () else .error (comErrors steps)

/-! ## Plain fallback (`apply_plain_fallback` over `iter_all_paragraphs`)

The docx document is modelled to the nesting depth the source can interact
with.  In python-docx, `doc.paragraphs` and `doc.tables` return only the
direct children of the body, and `cell.paragraphs` returns only the
paragraphs that are direct children of that cell; a table nested inside a
cell is reachable only through `cell.tables`, which `iter_all_paragraphs`
never calls.  A `Para` carries its text plus a count of how many times the
`paragraph.text` setter ran, so frame properties about write-backs are
expressible. -/

structure Para where
  text : String
  writes : Nat
deriving DecidableEq

/-- Direct content of a top-level table cell: paragraphs, plus nested tables
whose cells hold their own paragraphs. -/
inductive CellItem where
  | cpara (p : Para)
  | ctable (rows : List (List (List Para)))
deriving DecidableEq

structure Cell where
  items : List CellItem
deriving DecidableEq

/-- A body-level element: a paragraph or a table (rows of cells). -/
inductive Block where
  | bpara (p : Para)
  | btable (rows : List (List Cell))
deriving DecidableEq

abbrev DocX := List Block

/-- Python `str.replace` on an empty pattern (never used by the pipeline:
markers are never empty; kept for fidelity of `pyReplace`). -/
def replEmptyPat (rep : List Char) : List Char → List Char
  | [] => rep
  | c :: cs => rep ++ c :: replEmptyPat rep cs

/-- Python `str.replace` body for a non-empty pattern `p :: ps`: replace
every non-overlapping occurrence, scanning left to right.  The recursion is
indexed by fuel so that it is structural (and therefore kernel-computable);
every step consumes at least one character, so fuel equal to the text length
is never exhausted and the `0` fallback is unreachable from `pyReplace`. -/
def pyReplaceAux (p : Char) (ps rep : List Char) : Nat → List Char → List Char
  | _, [] => []
  | 0, l => l
  | fuel + 1, c :: cs =>
    if p = c && ps.isPrefixOf cs then rep ++ pyReplaceAux p ps rep fuel (cs.drop ps.length)
    else c :: pyReplaceAux p ps rep fuel cs

/-- Python `s.replace(pat, rep)`. -/
def pyReplace (pat rep s : String) : String :=
  match pat.data with
  | [] => String.mk (replEmptyPat rep.data s.data)
  | p :: ps => String.mk (pyReplaceAux p ps rep.data s.data.length s.data)

/-- Contiguous-substring test, Python `pat in t`. -/
def infixAux (pat : List Char) : List Char → Bool
  | [] => pat.isPrefixOf []
  | c :: cs => pat.isPrefixOf (c :: cs) || infixAux pat cs

def hasSubstr (t pat : String) : Bool := infixAux pat.data t.data

/-- The glyph each placeholder type maps to (source lines 795-808). -/
def glyphFor (field_type : String) : String :=
  if field_type = "checkbox" then "[ ]"
  else if field_type = "date" then "__-__-____"
  else if field_type = "dropdown" then "[Kies een optie]"
  else if field_type = "signature_line" then
    "______________________________ (Handtekening)"
  else if field_type = "text_long" then
    "____________________________________________"
  else "____________________________"

/-- Python dict assignment `m[k] = v`: overwrite in place if the key exists,
else append (insertion order is what `dict.items()` later iterates). -/
def dictInsert (m : List (String × String)) (k v : String) : List (String × String) :=
  if m.any (fun kv => kv.1 = k) then m.map (fun kv => if kv.1 = k then (k, v) else kv)
  else m ++ [(k, v)]

/-- The `replacement_map` built from the placeholder list (source lines
795-808). -/
def buildReplacementMap (ps : List PlaceholderSpec) : List (String × String) :=
  ps.foldl (fun m p => dictInsert m p.marker (glyphFor p.field_type)) []

/-- The per-paragraph text pass (source lines 812-815): for each map entry in
order, if the marker occurs in the current text, replace every occurrence. -/
def fbText (rm : List (String × String)) (t : String) : String :=
  rm.foldl (fun acc mr => if hasSubstr acc mr.1 then pyReplace mr.1 mr.2 acc else acc) t

/-- Source lines 812-817: compute the updated text and assign
`paragraph.text` only when it differs from the current text. -/
def fbPara (rm : List (String × String)) (p : Para) : Para :=
  let u := fbText rm p.text
  if u ≠ p.text then ⟨u, p.writes + 1⟩ else p

/-- Cell items: direct paragraphs are rewritten (they are yielded by
`cell.paragraphs`); nested tables are untouched (never yielded). -/
def fbCellItem (rm : List (String × String)) : CellItem → CellItem
  | .cpara p => .cpara (fbPara rm p)
  | .ctable rows => .ctable rows

def fbCell (rm : List (String × String)) (c : Cell) : Cell :=
  ⟨c.items.map (fbCellItem rm)⟩

def fbBlock (rm : List (String × String)) : Block → Block
  | .bpara p => .bpara (fbPara rm p)
  | .btable rows => .btable (rows.map (fun r => r.map (fbCell rm)))

/-- Source `apply_plain_fallback`: build the replacement map, then rewrite
every paragraph yielded by `iter_all_paragraphs` (each paragraph is updated
independently, so the structural map is the loop). -/
def applyPlainFallback (ps : List PlaceholderSpec) (doc : DocX) : DocX :=
  doc.map (fbBlock (buildReplacementMap ps))

/-! Text collectors used to state which paragraphs the traversal visits. -/

/-- The text of a cell item when it is a direct paragraph. -/
def itemText : CellItem → Option String
  | .cpara p => some p.text
  | .ctable _ => none

/-- Texts of the paragraphs directly inside a top-level table cell
(`cell.paragraphs`). -/
def cellParaTexts (c : Cell) : List String :=
  c.items.filterMap itemText

def rowTexts : List Cell → List String
  | [] => []
  | c :: cs => cellParaTexts c ++ rowTexts cs

def rowsTexts : List (List Cell) → List String
  | [] => []
  | r :: rs => rowTexts r ++ rowsTexts rs

def bodyParaTexts : DocX → List String
  | [] => []
  | .bpara p :: rest => p.text :: bodyParaTexts rest
  | .btable _ :: rest => bodyParaTexts rest

def tableCellTexts : DocX → List String
  | [] => []
  | .bpara _ :: rest => tableCellTexts rest
  | .btable rows :: rest => rowsTexts rows ++ tableCellTexts rest

/-- The texts of exactly the paragraphs `iter_all_paragraphs` yields, in
yield order: body paragraphs first, then the direct cell paragraphs of the
top-level tables. -/
def visitedTexts (doc : DocX) : List String :=
  bodyParaTexts doc ++ tableCellTexts doc

/-- Texts of the paragraphs inside nested tables (tables contained in cells
of other tables) — the units `iter_all_paragraphs` never reaches. -/
def ntRowTexts : List (List Para) → List String
  | [] => []
  | cellParas :: rest => cellParas.map Para.text ++ ntRowTexts rest

def ntRowsTexts : List (List (List Para)) → List String
  | [] => []
  | nr :: rest => ntRowTexts nr ++ ntRowsTexts rest

def itemNestedTexts : CellItem → List String
  | .cpara _ => []
  | .ctable nrows => ntRowsTexts nrows

def itemsNestedTexts : List CellItem → List String
  | [] => []
  | it :: rest => itemNestedTexts it ++ itemsNestedTexts rest

def rowNestedTexts : List Cell → List String
  | [] => []
  | c :: cs => itemsNestedTexts c.items ++ rowNestedTexts cs

def rowsNestedTexts : List (List Cell) → List String
  | [] => []
  | r :: rs => rowNestedTexts r ++ rowsNestedTexts rs

def nestedTexts : DocX → List String
  | [] => []
  | .bpara _ :: rest => nestedTexts rest
  | .btable rows :: rest => rowsNestedTexts rows ++ nestedTexts rest

/-- Occurrence counting in a list of strings (used both for error messages
and for id occurrences). -/
def cnt (a : String) : List String → Nat
  | [] => 0
  | b :: l => (if b = a then 1 else 0) + cnt a l

/-- Field-duplicate messages and option-duplicate messages counted at once. -/
def dupCnt (x : String) (es : List String) : Nat :=
  cnt (dupFieldMsg x) es + cnt (dupOptionMsg x) es

/-- The invariant tying a stretch of validation to the id occurrences it
registers: the output `seen` set is the input plus the occurrences, and for
every id the number of duplicate messages emitted equals its number of
occurrences minus one free first occurrence (none free if it was already
seen). -/
def OccRel (seen occs es seenOut : List String) : Prop :=
  (∀ y, y ∈ seenOut ↔ (y ∈ seen ∨ y ∈ occs)) ∧
  (∀ x, dupCnt x es = cnt x occs - (if x ∈ seen then 0 else 1))

/-- Shape test used to state C9: is the value a JSON number? -/
def isJNum : JVal → Bool
  | .num _ => true
  | _ => false

/-- Python's positivity test on the (defaulted) margin value: numbers compare
with 0, booleans count as 1/0, everything else fails `isinstance`. -/
def pyPositiveNum : JVal → Bool
  | .num q => decide (0 < q)
  | .bool b => b
  | _ => false

/-- Per-field placeholder production as the (amended) specification describes
it: `info_block` yields none; `checkbox_group` yields one `checkbox`
placeholder per option (in option order) carrying the option's id and label
and the parent's truthiness-coerced `required`; `checkbox` yields exactly one
placeholder whose options list is empty (its declared options, which
validation permits, are not copied); every other type yields exactly one
placeholder carrying the field's own declared options, stringified. -/
def plannedOfField (fv : JVal) : List PlaceholderSpec :=
  let ftype := fv.lookupD "type" .null
  let fid := pyStr (fv.lookupD "id" .null)
  let lab := pyStr (fv.lookupD "label" .null)
  let req := pyTruthy (fv.lookupD "required" .null)
  if ftype.isStrEq "info_block" then []
  else if ftype.isStrEq "checkbox_group" then
    (asArrD (fv.lookupD "options" .null)).map (fun ov =>
      ⟨markerFor (pyStr (ov.lookupD "id" .null)), "checkbox",
        pyStr (ov.lookupD "id" .null), pyStr (ov.lookupD "label" .null), req, []⟩)
  else if ftype.isStrEq "checkbox" then
    [⟨markerFor fid, pyStr ftype, fid, lab, req, []⟩]
  else
    [⟨markerFor fid, pyStr ftype, fid, lab, req,
      (asArrD (fv.lookupD "options" .null)).map pyStr⟩]

/-- Field-by-field concatenation in document reading order. -/
def plannedOfFields : List JVal → List PlaceholderSpec
  | [] => []
  | fv :: rest => plannedOfField fv ++ plannedOfFields rest

/-- Section-by-section concatenation in document reading order. -/
def plannedOfSections : List JVal → List PlaceholderSpec
  | [] => []
  | sv :: rest =>
    plannedOfFields (asArrD (sv.lookupD "fields" .null)) ++ plannedOfSections rest

/-! ## String infrastructure for the proofs -/

/-- First character of a string, if any. -/
def strHead (s : String) : Option Char := s.data.head?

theorem strData_append (s t : String) : (s ++ t).data = s.data ++ t.data := rfl

theorem strOfData {s t : String} (h : s.data = t.data) : s = t := by
  cases s; cases t; exact congrArg String.mk h

theorem strHead_append {s : String} (t : String) {c : Char} (h : strHead s = some c) :
    strHead (s ++ t) = some c := by
  unfold strHead at *
  rw [strData_append]
  cases hd : s.data with
  | nil => rw [hd] at h; simp at h
  | cons a l => rw [hd] at h; simp at h; simp [hd, h]

theorem ne_of_strHead {s t : String} (h : strHead s ≠ strHead t) : s ≠ t :=
  fun e => h (congrArg strHead e)

theorem strAffix_inj {pre suf a b : String} (h : pre ++ a ++ suf = pre ++ b ++ suf) :
    a = b := by
  have hd : pre.data ++ a.data ++ suf.data = pre.data ++ b.data ++ suf.data :=
    congrArg String.data h
  exact strOfData (List.append_cancel_left (List.append_cancel_right hd))

theorem cnt_append (a : String) (l₁ l₂ : List String) :
    cnt a (l₁ ++ l₂) = cnt a l₁ + cnt a l₂ := by
  induction l₁ with
  | nil => simp [cnt]
  | cons b l ih => simp [cnt, ih]; omega

theorem cnt_pos_iff {a : String} {l : List String} : 0 < cnt a l ↔ a ∈ l := by
  induction l with
  | nil => simp [cnt]
  | cons b l ih =>
    by_cases hb : b = a
    · subst hb; simp [cnt]
    · simp [cnt, hb, ih, Ne.symm hb]

theorem ne_nil_of_cnt_pos {a : String} {l : List String} (h : 0 < cnt a l) : l ≠ [] := by
  intro he; subst he; simp [cnt] at h

/-! ## Claim C5: marker derivation -/

theorem stripPre_append (p rest : List Char) : stripPre p (p ++ rest) = some rest := by
  induction p with
  | nil => simp [stripPre]
  | cons c cs ih => simp [stripPre, ih]

theorem stripSuf_append (suf rest : List Char) : stripSuf suf (rest ++ suf) = some rest := by
  unfold stripSuf
  rw [List.reverse_append, stripPre_append]
  simp

theorem idOfMarker_markerFor (field_id : String) :
    idOfMarker (markerFor field_id) = some field_id := by
  unfold idOfMarker markerFor
  have h1 : ("[[FIELD:" ++ field_id ++ "]]").data =
      "[[FIELD:".data ++ (field_id.data ++ "]]".data) := by
    rw [strData_append, strData_append, List.append_assoc]
  rw [h1, stripPre_append]
  show Option.map String.mk (stripSuf "]]".data (field_id.data ++ "]]".data)) = some field_id
  rw [stripSuf_append]
  rfl

/-- C5: marker derivation is the pure function
`marker(id) = "[[FIELD:" + id + "]]"`; it depends on the id alone (it is a
function of the id), markers of distinct ids are distinct (stated as the
contrapositive: equal markers force equal ids), and the id is recoverable
from the marker by `idOfMarker`. -/
theorem marker_pure_injective_reversible (a b : String) (h : markerFor a = markerFor b) :
    a = b ∧ idOfMarker (markerFor a) = some a ∧ markerFor a = "[[FIELD:" ++ a ++ "]]" := by
  refine ⟨?_, idOfMarker_markerFor a, rfl⟩
  have ha := idOfMarker_markerFor a
  have hb := idOfMarker_markerFor b
  rw [h, hb] at ha
  exact (Option.some.inj ha).symm

/-- Witness for C5 at the concrete id `"naam"`. -/
theorem marker_pure_injective_reversible_witness :
    "naam" = "naam" ∧ idOfMarker (markerFor "naam") = some "naam" ∧
      markerFor "naam" = "[[FIELD:" ++ "naam" ++ "]]" :=
  marker_pure_injective_reversible "naam" "naam" rfl

/-! ## Claim C4: missing top-level keys short-circuit validation -/

/-- C4: for a mapping spec missing at least one of the four top-level keys,
`validate_spec` raises exactly the missing-key messages (one per absent key,
in the fixed key order) and nothing else — no type, branding, layout,
section or field error can appear, because validation stops before them. -/
theorem missing_top_keys_report_only_missing (kvs : List (String × JVal))
    (h : topLevelKeys.filter (fun k => !(JVal.obj kvs).hasKey k) ≠ []) :
    validateSpec (.obj kvs) =
      .error (.vErrors
        ((topLevelKeys.filter (fun k => !(JVal.obj kvs).hasKey k)).map missingTopMsg)) := by
  have hm : (topLevelKeys.filter (fun k => !(JVal.obj kvs).hasKey k)).map missingTopMsg ≠ [] := by
    simpa using h
  unfold validateSpec
  simp only [if_neg hm]

/-- Witness for C4: a spec having only `metadata` reports exactly the three
other keys as missing. -/
theorem missing_top_keys_report_only_missing_witness :
    validateSpec (.obj [("metadata", .obj [])]) =
      .error (.vErrors
        ((topLevelKeys.filter
            (fun k => !(JVal.obj [("metadata", .obj [])]).hasKey k)).map missingTopMsg)) :=
  missing_top_keys_report_only_missing [("metadata", .obj [])] (by decide)

/-! ## Claim C9: the `margin_cm` check -/

/-- C9 counterexample: `margin_cm: true` is present and is not a JSON
number, yet the validator reports no margin error — Python's
`isinstance(True, (int, float))` is true because `bool` subclasses `int`,
and `True <= 0` is false.  The claim (error exactly when the present value
is not a positive number) is therefore false as stated. -/
theorem margin_bool_true_accepted :
    marginErrs (.obj [("margin_cm", .bool true)]) = [] ∧
      isJNum (.bool true) = false ∧
      (JVal.obj [("margin_cm", .bool true)]).hasKey "margin_cm" = true :=
  ⟨rfl, rfl, rfl⟩

/-- C9 (amended): when the layout is a mapping, the margin check accepts an
absent `margin_cm` (default 2.0) and reports the margin error exactly when
the present value fails Python's `isinstance(x, (int, float)) and x > 0`
test — under which booleans count as numbers (`True` = 1 is accepted,
`False` = 0 is rejected). -/
theorem margin_check_characterization (kvs : List (String × JVal)) :
    marginErrs (.obj kvs) =
      if pyPositiveNum ((JVal.obj kvs).lookupD "margin_cm" (.num 2)) then []
      else [marginMsg] := by
  unfold marginErrs
  cases hv : (JVal.obj kvs).lookupD "margin_cm" (.num 2) with
  | num q =>
    simp only [hv, pyPositiveNum]
    rcases le_or_lt q 0 with hq | hq
    · rw [if_pos hq, if_neg (by simpa using not_lt.mpr hq)]
    · rw [if_neg (by simpa using not_le.mpr hq), if_pos (by simpa using hq)]
  | bool b => cases b <;> simp [hv, pyPositiveNum]
  | null => simp [hv, pyPositiveNum]
  | str s => simp [hv, pyPositiveNum]
  | arr xs => simp [hv, pyPositiveNum]
  | obj o => simp [hv, pyPositiveNum]

/-! ## Claim C3: COM marker-resolution error aggregation -/

theorem comErrors_eq_nil_iff (steps : List (PlaceholderSpec × Nat)) :
    comErrors steps = [] ↔ ∀ pc ∈ steps, pc.2 = 1 := by
  induction steps with
  | nil => simp [comErrors]
  | cons pc rest ih =>
    obtain ⟨p, c⟩ := pc
    match c with
    | 0 => simp [comErrors]
    | 1 => simpa [comErrors] using ih
    | (n + 2) => simp [comErrors]

/-- C3: every placeholder whose count is 0 or exceeds 1 contributes exactly
one descriptive error naming its marker (and the multiplicity when above 1),
accumulation never stops early (the error list is the `filterMap` of the
whole run), and the aggregated failure is raised exactly when some error
accumulated — the save (`.ok ()`) happens exactly when every marker resolved
exactly once. -/
theorem com_errors_aggregated_and_save_guarded (steps : List (PlaceholderSpec × Nat)) :
    comErrors steps =
      steps.filterMap (fun pc =>
        if pc.2 = 0 then some (comNotFoundMsg pc.1.marker)
        else if 1 < pc.2 then some (comMultiMsg pc.2 pc.1.marker)
        else none) ∧
    (applyComControls steps = .ok () ↔ ∀ pc ∈ steps, pc.2 = 1) := by
  constructor
  · induction steps with
    | nil => simp [comErrors]
    | cons pc rest ih =>
      obtain ⟨p, c⟩ := pc
      match c with
      | 0 => simpa [comErrors, List.filterMap_cons] using ih
      | 1 => simpa [comErrors, List.filterMap_cons] using ih
      | (n + 2) => simpa [comErrors, List.filterMap_cons] using ih
  · unfold applyComControls
    by_cases hc : comErrors steps = []
    · rw [if_pos hc]
      simpa [hc] using (comErrors_eq_nil_iff steps).mp hc
    · rw [if_neg hc]
      constructor
      · intro h; exact absurd h (by simp)
      · intro h; exact absurd ((comErrors_eq_nil_iff steps).mpr h) hc

/-! ## Fallback lemmas shared by C7, C8 and C10 -/

theorem fbText_id : ∀ (rm : List (String × String)) (t : String),
    (∀ mr ∈ rm, hasSubstr t mr.1 = false) → fbText rm t = t := by
  intro rm
  induction rm with
  | nil => intro t _; rfl
  | cons mr rest ih =>
    intro t h
    have h0 : hasSubstr t mr.1 = false := h mr (by simp)
    have hstep : fbText (mr :: rest) t = fbText rest t := by
      simp [fbText, h0]
    rw [hstep]
    exact ih t (fun m hm => h m (by simp [hm]))

theorem fbPara_text (rm : List (String × String)) (p : Para) :
    (fbPara rm p).text = fbText rm p.text := by
  unfold fbPara
  by_cases h : fbText rm p.text = p.text
  · simp [h]
  · simp [h]

theorem fbPara_id {rm : List (String × String)} {p : Para}
    (h : fbText rm p.text = p.text) : fbPara rm p = p := by
  unfold fbPara
  simp [h]

/-- C10: the per-paragraph pass of `apply_plain_fallback` has the frame
property — a paragraph whose text contains none of the replacement-map
markers is returned completely unchanged (no text assignment, write count
intact), and for any paragraph the `paragraph.text` setter runs exactly when
the substituted text differs from the current text. -/
theorem fallback_frame_property (ps : List PlaceholderSpec) (p q : Para)
    (h : ∀ mr ∈ buildReplacementMap ps, hasSubstr p.text mr.1 = false) :
    fbPara (buildReplacementMap ps) p = p ∧
      ((fbPara (buildReplacementMap ps) q).writes = q.writes ↔
        (fbPara (buildReplacementMap ps) q).text = q.text) := by
  refine ⟨fbPara_id (fbText_id _ _ h), ?_⟩
  unfold fbPara
  by_cases hq : fbText (buildReplacementMap ps) q.text = q.text
  · simp [hq]
  · simp only [ne_eq, hq, not_false_eq_true, if_true]
    constructor
    · intro hw; exact absurd hw (by omega)
    · intro ht; exact ht.elim

/-- Witness for C10 at a concrete marker-free paragraph. -/
theorem fallback_frame_property_witness :
    fbPara (buildReplacementMap [⟨markerFor "a", "checkbox", "a", "Label", true, []⟩])
        ⟨"geen marker hier", 0⟩ = ⟨"geen marker hier", 0⟩ ∧
      ((fbPara (buildReplacementMap [⟨markerFor "a", "checkbox", "a", "Label", true, []⟩])
          ⟨"[[FIELD:a]]", 0⟩).writes = (Para.mk "[[FIELD:a]]" 0).writes ↔
        (fbPara (buildReplacementMap [⟨markerFor "a", "checkbox", "a", "Label", true, []⟩])
          ⟨"[[FIELD:a]]", 0⟩).text = (Para.mk "[[FIELD:a]]" 0).text) :=
  fallback_frame_property [⟨markerFor "a", "checkbox", "a", "Label", true, []⟩]
    ⟨"geen marker hier", 0⟩ ⟨"[[FIELD:a]]", 0⟩ (by decide)

/-! ## Claim C7: which paragraphs the fallback visits -/

theorem itemsTexts_fb (rm : List (String × String)) (items : List CellItem) :
    (items.map (fbCellItem rm)).filterMap itemText =
      (items.filterMap itemText).map (fbText rm) := by
  induction items with
  | nil => rfl
  | cons it rest ih =>
    cases it with
    | cpara p =>
      simp only [List.map_cons, List.filterMap_cons, fbCellItem, itemText, List.map_cons]
      rw [fbPara_text, ih]
    | ctable rows =>
      simp only [List.map_cons, List.filterMap_cons, fbCellItem, itemText]
      exact ih

theorem cellParaTexts_fb (rm : List (String × String)) (c : Cell) :
    cellParaTexts (fbCell rm c) = (cellParaTexts c).map (fbText rm) := by
  obtain ⟨items⟩ := c
  exact itemsTexts_fb rm items

theorem rowTexts_fb (rm : List (String × String)) (r : List Cell) :
    rowTexts (r.map (fbCell rm)) = (rowTexts r).map (fbText rm) := by
  induction r with
  | nil => rfl
  | cons c cs ih =>
    simp only [List.map_cons, rowTexts, List.map_append, cellParaTexts_fb, ih]

theorem rowsTexts_fb (rm : List (String × String)) (rows : List (List Cell)) :
    rowsTexts (rows.map (fun r => r.map (fbCell rm))) = (rowsTexts rows).map (fbText rm) := by
  induction rows with
  | nil => rfl
  | cons r rs ih =>
    simp only [List.map_cons, rowsTexts, List.map_append, rowTexts_fb, ih]

theorem bodyParaTexts_fb (rm : List (String × String)) (doc : DocX) :
    bodyParaTexts (doc.map (fbBlock rm)) = (bodyParaTexts doc).map (fbText rm) := by
  induction doc with
  | nil => rfl
  | cons b rest ih =>
    cases b with
    | bpara p =>
      simp only [List.map_cons, fbBlock, bodyParaTexts, List.map_cons]
      rw [fbPara_text, ih]
    | btable rows =>
      simp only [List.map_cons, fbBlock, bodyParaTexts]
      exact ih

theorem tableCellTexts_fb (rm : List (String × String)) (doc : DocX) :
    tableCellTexts (doc.map (fbBlock rm)) = (tableCellTexts doc).map (fbText rm) := by
  induction doc with
  | nil => rfl
  | cons b rest ih =>
    cases b with
    | bpara p =>
      simp only [List.map_cons, fbBlock, tableCellTexts]
      exact ih
    | btable rows =>
      simp only [List.map_cons, fbBlock, tableCellTexts, List.map_append, rowsTexts_fb, ih]

theorem itemNestedTexts_fb (rm : List (String × String)) (it : CellItem) :
    itemNestedTexts (fbCellItem rm it) = itemNestedTexts it := by
  cases it <;> rfl

theorem itemsNestedTexts_fb (rm : List (String × String)) (items : List CellItem) :
    itemsNestedTexts (items.map (fbCellItem rm)) = itemsNestedTexts items := by
  induction items with
  | nil => rfl
  | cons it rest ih =>
    simp only [List.map_cons, itemsNestedTexts, itemNestedTexts_fb, ih]

theorem rowNestedTexts_fb (rm : List (String × String)) (r : List Cell) :
    rowNestedTexts (r.map (fbCell rm)) = rowNestedTexts r := by
  induction r with
  | nil => rfl
  | cons c cs ih =>
    simp only [List.map_cons, rowNestedTexts, fbCell, itemsNestedTexts_fb, ih]

theorem rowsNestedTexts_fb (rm : List (String × String)) (rows : List (List Cell)) :
    rowsNestedTexts (rows.map (fun r => r.map (fbCell rm))) = rowsNestedTexts rows := by
  induction rows with
  | nil => rfl
  | cons r rs ih =>
    simp only [List.map_cons, rowsNestedTexts, rowNestedTexts_fb, ih]

theorem nestedTexts_fb (rm : List (String × String)) (doc : DocX) :
    nestedTexts (doc.map (fbBlock rm)) = nestedTexts doc := by
  induction doc with
  | nil => rfl
  | cons b rest ih =>
    cases b with
    | bpara p =>
      simp only [List.map_cons, fbBlock, nestedTexts]
      exact ih
    | btable rows =>
      simp only [List.map_cons, fbBlock, nestedTexts, rowsNestedTexts_fb, ih]

/-- C7 (amended): the fallback rewrites exactly the paragraph-like units
`iter_all_paragraphs` yields — the body paragraphs and the paragraphs
directly inside cells of top-level tables — applying the per-unit
substitution `fbText` to each visited text, while every paragraph inside a
nested table (a table contained in a cell of another table) is left with its
text unchanged: python-docx's `doc.tables` and `cell.paragraphs` only return
direct children, and the source never calls `cell.tables`. -/
theorem fallback_visits_body_and_cell_paragraphs (ps : List PlaceholderSpec) (doc : DocX) :
    visitedTexts (applyPlainFallback ps doc) =
      (visitedTexts doc).map (fbText (buildReplacementMap ps)) ∧
    nestedTexts (applyPlainFallback ps doc) = nestedTexts doc := by
  unfold applyPlainFallback visitedTexts
  refine ⟨?_, nestedTexts_fb _ doc⟩
  rw [bodyParaTexts_fb, tableCellTexts_fb, List.map_append]

/-- C7 counterexample: a paragraph inside a nested table carries a marker of
the placeholder list, yet the fallback leaves the whole document unchanged —
the claim that nested-table paragraphs are visited and substituted is false
on the code. -/
theorem fallback_skips_nested_table_paragraphs :
    applyPlainFallback [⟨markerFor "x", "checkbox", "x", "Optie", true, []⟩]
        [.btable [[⟨[.ctable [[[⟨markerFor "x" ++ " optie", 0⟩]]]]⟩]]] =
      [.btable [[⟨[.ctable [[[⟨markerFor "x" ++ " optie", 0⟩]]]]⟩]]] ∧
    hasSubstr (markerFor "x" ++ " optie") (markerFor "x") = true ∧
    buildReplacementMap [⟨markerFor "x", "checkbox", "x", "Optie", true, []⟩] =
      [(markerFor "x", "[ ]")] := by
  refine ⟨rfl, by decide, by decide⟩

/-! ## Claim C8: idempotence of the fallback -/

theorem mem_visited_bpara {t : String} {p : Para} {rest : DocX} :
    t ∈ visitedTexts (.bpara p :: rest) ↔ t = p.text ∨ t ∈ visitedTexts rest := by
  simp only [visitedTexts, bodyParaTexts, tableCellTexts, List.mem_cons, List.mem_append]
  tauto

theorem mem_visited_btable {t : String} {rows : List (List Cell)} {rest : DocX} :
    t ∈ visitedTexts (.btable rows :: rest) ↔ t ∈ rowsTexts rows ∨ t ∈ visitedTexts rest := by
  simp only [visitedTexts, bodyParaTexts, tableCellTexts, List.mem_append]
  tauto

theorem fbItems_id {rm : List (String × String)} :
    ∀ (items : List CellItem),
    (∀ t ∈ items.filterMap itemText, ∀ mr ∈ rm, hasSubstr t mr.1 = false) →
    items.map (fbCellItem rm) = items := by
  intro items
  induction items with
  | nil => intro _; rfl
  | cons it rest ih =>
    intro h
    cases it with
    | cpara p =>
      have hp : ∀ mr ∈ rm, hasSubstr p.text mr.1 = false := by
        intro mr hmr
        exact h p.text (by simp [List.filterMap_cons, itemText]) mr hmr
      have hrest : ∀ t ∈ rest.filterMap itemText, ∀ mr ∈ rm, hasSubstr t mr.1 = false := by
        intro t ht mr hmr
        exact h t (by simp [List.filterMap_cons, itemText, ht]) mr hmr
      simp only [List.map_cons, fbCellItem, fbPara_id (fbText_id rm p.text hp), ih hrest]
    | ctable rows =>
      have hrest : ∀ t ∈ rest.filterMap itemText, ∀ mr ∈ rm, hasSubstr t mr.1 = false := by
        intro t ht mr hmr
        exact h t (by simp [List.filterMap_cons, itemText, ht]) mr hmr
      simp only [List.map_cons, fbCellItem, ih hrest]

theorem fbRow_id {rm : List (String × String)} :
    ∀ (r : List Cell),
    (∀ t ∈ rowTexts r, ∀ mr ∈ rm, hasSubstr t mr.1 = false) →
    r.map (fbCell rm) = r := by
  intro r
  induction r with
  | nil => intro _; rfl
  | cons c cs ih =>
    intro h
    obtain ⟨items⟩ := c
    have hc : ∀ t ∈ List.filterMap itemText items, ∀ mr ∈ rm, hasSubstr t mr.1 = false := by
      intro t ht mr hmr
      exact h t (by simp [rowTexts, cellParaTexts, ht]) mr hmr
    have hcs : ∀ t ∈ rowTexts cs, ∀ mr ∈ rm, hasSubstr t mr.1 = false := by
      intro t ht mr hmr
      exact h t (by simp [rowTexts, ht]) mr hmr
    simp only [List.map_cons, fbCell, fbItems_id items hc, ih hcs]

theorem fbRows_id {rm : List (String × String)} :
    ∀ (rows : List (List Cell)),
    (∀ t ∈ rowsTexts rows, ∀ mr ∈ rm, hasSubstr t mr.1 = false) →
    rows.map (fun r => r.map (fbCell rm)) = rows := by
  intro rows
  induction rows with
  | nil => intro _; rfl
  | cons r rs ih =>
    intro h
    have hr : ∀ t ∈ rowTexts r, ∀ mr ∈ rm, hasSubstr t mr.1 = false := by
      intro t ht mr hmr
      exact h t (by simp [rowsTexts, ht]) mr hmr
    have hrs : ∀ t ∈ rowsTexts rs, ∀ mr ∈ rm, hasSubstr t mr.1 = false := by
      intro t ht mr hmr
      exact h t (by simp [rowsTexts, ht]) mr hmr
    simp only [List.map_cons, fbRow_id r hr, ih hrs]

theorem fbDoc_id {rm : List (String × String)} :
    ∀ (d : DocX),
    (∀ t ∈ visitedTexts d, ∀ mr ∈ rm, hasSubstr t mr.1 = false) →
    d.map (fbBlock rm) = d := by
  intro d
  induction d with
  | nil => intro _; rfl
  | cons b rest ih =>
    intro h
    cases b with
    | bpara p =>
      have hp : ∀ mr ∈ rm, hasSubstr p.text mr.1 = false := by
        intro mr hmr
        exact h p.text (mem_visited_bpara.mpr (Or.inl rfl)) mr hmr
      have hrest : ∀ t ∈ visitedTexts rest, ∀ mr ∈ rm, hasSubstr t mr.1 = false := by
        intro t ht mr hmr
        exact h t (mem_visited_bpara.mpr (Or.inr ht)) mr hmr
      simp only [List.map_cons, fbBlock, fbPara_id (fbText_id rm p.text hp), ih hrest]
    | btable rows =>
      have hrows : ∀ t ∈ rowsTexts rows, ∀ mr ∈ rm, hasSubstr t mr.1 = false := by
        intro t ht mr hmr
        exact h t (mem_visited_btable.mpr (Or.inl ht)) mr hmr
      have hrest : ∀ t ∈ visitedTexts rest, ∀ mr ∈ rm, hasSubstr t mr.1 = false := by
        intro t ht mr hmr
        exact h t (mem_visited_btable.mpr (Or.inr ht)) mr hmr
      simp only [List.map_cons, fbBlock, fbRows_id rows hrows, ih hrest]

/-- C8 (amended): when, after one application of the fallback, no literal
marker token of the replacement map remains in any visited paragraph text,
a second application leaves the document unchanged.  The unconditional claim
is false: a replacement can splice a remaining marker together out of
surrounding text (see the counterexample), so a marker can survive the first
pass and the second pass then changes the document. -/
theorem fallback_idempotent_when_no_marker_remains (ps : List PlaceholderSpec) (doc : DocX)
    (h : ∀ t ∈ visitedTexts (applyPlainFallback ps doc),
         ∀ mr ∈ buildReplacementMap ps, hasSubstr t mr.1 = false) :
    applyPlainFallback ps (applyPlainFallback ps doc) = applyPlainFallback ps doc :=
  fbDoc_id (applyPlainFallback ps doc) h

/-- Witness for C8 at a document whose single marker is fully consumed by one
pass. -/
theorem fallback_idempotent_when_no_marker_remains_witness :
    applyPlainFallback [⟨markerFor "a", "checkbox", "a", "L", true, []⟩]
        (applyPlainFallback [⟨markerFor "a", "checkbox", "a", "L", true, []⟩]
          [.bpara ⟨"[[FIELD:a]] hoi", 0⟩]) =
      applyPlainFallback [⟨markerFor "a", "checkbox", "a", "L", true, []⟩]
        [.bpara ⟨"[[FIELD:a]] hoi", 0⟩] :=
  fallback_idempotent_when_no_marker_remains
    [⟨markerFor "a", "checkbox", "a", "L", true, []⟩]
    [.bpara ⟨"[[FIELD:a]] hoi", 0⟩] (by decide)

/-- C8 counterexample: with placeholders for the ids `"[ ]"` and `"b"` (both
are valid non-empty ids) and a paragraph reading `[[FIELD:[[FIELD:b]]]]`, the
first pass rewrites the text to `[[FIELD:[ ]]]` — a literal marker token of
the map that survives the pass — and a second application changes the
document again, so the fallback is not idempotent as claimed. -/
theorem fallback_not_idempotent :
    applyPlainFallback
        [⟨markerFor "[ ]", "checkbox", "[ ]", "A", true, []⟩,
         ⟨markerFor "b", "checkbox", "b", "B", true, []⟩]
        [.bpara ⟨"[[FIELD:[[FIELD:b]]]]", 0⟩] =
      [.bpara ⟨"[[FIELD:[ ]]]", 1⟩] ∧
    applyPlainFallback
        [⟨markerFor "[ ]", "checkbox", "[ ]", "A", true, []⟩,
         ⟨markerFor "b", "checkbox", "b", "B", true, []⟩]
        [.bpara ⟨"[[FIELD:[ ]]]", 1⟩] =
      [.bpara ⟨"[ ]", 2⟩] ∧
    applyPlainFallback
        [⟨markerFor "[ ]", "checkbox", "[ ]", "A", true, []⟩,
         ⟨markerFor "b", "checkbox", "b", "B", true, []⟩]
        (applyPlainFallback
          [⟨markerFor "[ ]", "checkbox", "[ ]", "A", true, []⟩,
           ⟨markerFor "b", "checkbox", "b", "B", true, []⟩]
          [.bpara ⟨"[[FIELD:[[FIELD:b]]]]", 0⟩]) ≠
      applyPlainFallback
        [⟨markerFor "[ ]", "checkbox", "[ ]", "A", true, []⟩,
         ⟨markerFor "b", "checkbox", "b", "B", true, []⟩]
        [.bpara ⟨"[[FIELD:[[FIELD:b]]]]", 0⟩] := by
  refine ⟨by decide, by decide, by decide⟩

/-! ## Claim C2: placeholder planning -/

theorem planOpts_append (req : Bool) :
    ∀ (ovs : List JVal) (acc : List PlaceholderSpec),
      planOpts req ovs acc = acc ++ planOpts req ovs [] := by
  intro ovs
  induction ovs with
  | nil => intro acc; simp [planOpts]
  | cons ov rest ih =>
    intro acc
    simp only [planOpts, List.nil_append]
    rw [ih, ih [_]]
    simp [List.append_assoc]

theorem planOpts_nil_eq_map (req : Bool) :
    ∀ ovs : List JVal,
      planOpts req ovs [] =
        ovs.map (fun ov =>
          ⟨markerFor (pyStr (ov.lookupD "id" .null)), "checkbox",
            pyStr (ov.lookupD "id" .null), pyStr (ov.lookupD "label" .null), req, []⟩) := by
  intro ovs
  induction ovs with
  | nil => rfl
  | cons ov rest ih =>
    simp only [planOpts, List.nil_append, List.map_cons]
    rw [planOpts_append, ih]
    simp

theorem planField_append (fv : JVal) (acc : List PlaceholderSpec) :
    planField fv acc = acc ++ planField fv [] := by
  unfold planField
  by_cases h1 : (fv.lookupD "type" .null).isStrEq "info_block"
  · simp [h1]
  · by_cases h2 : (fv.lookupD "type" .null).isStrEq "checkbox_group"
    · simp only [h1, h2, Bool.false_eq_true, if_false, if_true]
      rw [planOpts_append]
    · by_cases h3 : (fv.lookupD "type" .null).isStrEq "checkbox"
      · simp [h1, h2, h3]
      · simp [h1, h2, h3]

theorem planField_nil_eq (fv : JVal) : planField fv [] = plannedOfField fv := by
  unfold planField plannedOfField
  by_cases h1 : (fv.lookupD "type" .null).isStrEq "info_block"
  · simp [h1]
  · by_cases h2 : (fv.lookupD "type" .null).isStrEq "checkbox_group"
    · simp only [h1, h2, Bool.false_eq_true, if_false, if_true]
      rw [planOpts_nil_eq_map]
    · by_cases h3 : (fv.lookupD "type" .null).isStrEq "checkbox"
      · simp [h1, h2, h3]
      · simp [h1, h2, h3]

theorem planFields_append :
    ∀ (fvs : List JVal) (acc : List PlaceholderSpec),
      planFields fvs acc = acc ++ planFields fvs [] := by
  intro fvs
  induction fvs with
  | nil => intro acc; simp [planFields]
  | cons fv rest ih =>
    intro acc
    simp only [planFields]
    rw [planField_append fv acc, ih, ih (planField fv [])]
    rw [planField_append fv ([] : List PlaceholderSpec)]
    simp [List.append_assoc]

theorem planFields_nil_eq (fvs : List JVal) : planFields fvs [] = plannedOfFields fvs := by
  induction fvs with
  | nil => rfl
  | cons fv rest ih =>
    simp only [planFields, plannedOfFields]
    rw [planFields_append, ih, planField_nil_eq]

theorem planSections_append :
    ∀ (svs : List JVal) (acc : List PlaceholderSpec),
      planSections svs acc = acc ++ planSections svs [] := by
  intro svs
  induction svs with
  | nil => intro acc; simp [planSections]
  | cons sv rest ih =>
    intro acc
    simp only [planSections]
    rw [planFields_append _ acc, ih, ih (planFields _ [])]
    rw [planFields_append _ ([] : List PlaceholderSpec)]
    simp [List.append_assoc]

theorem planSections_nil_eq (svs : List JVal) :
    planSections svs [] = plannedOfSections svs := by
  induction svs with
  | nil => rfl
  | cons sv rest ih =>
    simp only [planSections, plannedOfSections]
    rw [planSections_append, ih, planFields_nil_eq]

/-- C2 (amended): for a validated specification, the planner's accumulator
pass produces exactly the reading-order concatenation described per field by
`plannedOfField`: a `checkbox_group` with N options yields N placeholders of
type `checkbox` (none for the group itself), each carrying the option's id
and label and the parent's `required`; an `info_block` yields none; every
other type yields exactly one placeholder — which carries the field's
declared (stringified) options except for `checkbox`, whose placeholder
always has an empty options list. -/
theorem planner_reading_order_characterization (spec : JVal)
    (h : validateSpec spec = .ok ()) :
    planPlaceholders spec = plannedOfSections (asArrD (spec.lookupD "sections" .null)) := by
  unfold planPlaceholders
  exact planSections_nil_eq _

/-- Witness for C2 at a concrete validated specification with a `text_short`
field, a two-option `checkbox_group` and an `info_block`. -/
theorem planner_reading_order_characterization_witness :
    planPlaceholders specPlanExample =
      plannedOfSections (asArrD (specPlanExample.lookupD "sections" .null)) :=
  planner_reading_order_characterization specPlanExample rfl

/-- C2 counterexample: a validated specification whose `checkbox` field
declares `options: ["x"]` — validation accepts it, the field's declared
options stringify to `["x"]`, yet the planner emits a placeholder whose
options list is empty, refuting the claim that every non-group, non-info
field's placeholder carries the field's own declared options. -/
theorem planner_checkbox_drops_declared_options :
    validateSpec specCheckboxOpts = .ok () ∧
    planPlaceholders specCheckboxOpts =
      [⟨markerFor "c1", "checkbox", "c1", "Check", true, []⟩] ∧
    (asArrD (fieldCheckboxOpts.lookupD "options" .null)).map pyStr = ["x"] :=
  ⟨rfl, rfl, rfl⟩

/-! ## Claim C6: which per-field checks run -/

theorem valField_deep_decomp (fp : String) (seen : List String) (kvs : List (String × JVal))
    (hall : fieldReqKeys.all (fun k => (JVal.obj kvs).hasKey k) = true)
    (hid : isNonemptyStr ((JVal.obj kvs).lookupD "id" .null) = true) :
    (valField fp seen (.obj kvs)).1 =
      fieldDupErrs seen (.obj kvs) ++
      (if isAllowedType ((JVal.obj kvs).lookupD "type" .null) then []
       else [typeMsg fp ((JVal.obj kvs).lookupD "type" .null)]) ++
      (if isJBool ((JVal.obj kvs).lookupD "required" .null) then []
       else [fp ++ ".required moet true of false zijn."]) ++
      (if isNonemptyStr ((JVal.obj kvs).lookupD "label" .null) then []
       else [fp ++ ".label moet een niet-lege string zijn."]) ++
      (if isJStr ((JVal.obj kvs).lookupD "help_text" .null) then []
       else [fp ++ ".help_text moet een string zijn (leeg is toegestaan)."]) ++
      (if ((JVal.obj kvs).lookupD "type" .null).isStrEq "dropdown" then
        dropdownErrs fp ((JVal.obj kvs).lookup "options")
       else []) ++ fieldTailErrs fp seen (.obj kvs) := by
  unfold valField
  simp only [hall, hid, if_true]
  by_cases hcg : ((JVal.obj kvs).lookupD "type" .null).isStrEq "checkbox_group"
  · cases hopt : (JVal.obj kvs).lookup "options" with
    | none => simp [hcg, hopt, fieldDupErrs, fieldTailErrs]
    | some ov =>
      cases ov with
      | arr xs =>
        cases xs with
        | nil => simp [hcg, hopt, fieldDupErrs, fieldTailErrs]
        | cons o os => simp [hcg, hopt, fieldDupErrs, fieldTailErrs]
      | null => simp [hcg, hopt, fieldDupErrs, fieldTailErrs]
      | bool b => simp [hcg, hopt, fieldDupErrs, fieldTailErrs]
      | num q => simp [hcg, hopt, fieldDupErrs, fieldTailErrs]
      | str s => simp [hcg, hopt, fieldDupErrs, fieldTailErrs]
      | obj o => simp [hcg, hopt, fieldDupErrs, fieldTailErrs]
  · simp [hcg, fieldDupErrs, fieldTailErrs]

/-- C6 (amended): deeper per-field checks are performed when the field has
all five required keys and additionally a valid (non-empty string) id — a
field with an invalid id reports only the id error and skips the remaining
checks (see the counterexample).  When the id is valid, every violation
among invalid type, non-boolean `required`, empty `label` and non-string
`help_text` is reported. -/
theorem field_deeper_checks_all_reported (fp : String) (seen : List String) (fv : JVal)
    (hshape : fieldShapeOk fv = true)
    (hid : isNonemptyStr (fv.lookupD "id" .null) = true) :
    (isAllowedType (fv.lookupD "type" .null) = false →
      typeMsg fp (fv.lookupD "type" .null) ∈ (valField fp seen fv).1) ∧
    (isJBool (fv.lookupD "required" .null) = false →
      fp ++ ".required moet true of false zijn." ∈ (valField fp seen fv).1) ∧
    (isNonemptyStr (fv.lookupD "label" .null) = false →
      fp ++ ".label moet een niet-lege string zijn." ∈ (valField fp seen fv).1) ∧
    (isJStr (fv.lookupD "help_text" .null) = false →
      fp ++ ".help_text moet een string zijn (leeg is toegestaan)." ∈ (valField fp seen fv).1) := by
  cases fv with
  | obj kvs =>
    have hall : fieldReqKeys.all (fun k => (JVal.obj kvs).hasKey k) = true := by
      simpa [fieldShapeOk] using hshape
    have heq := valField_deep_decomp fp seen kvs hall hid
    refine ⟨?_, ?_, ?_, ?_⟩ <;> intro hguard <;> rw [heq] <;>
      simp [hguard, List.mem_append]
  | null => simp [fieldShapeOk] at hshape
  | bool b => simp [fieldShapeOk] at hshape
  | num q => simp [fieldShapeOk] at hshape
  | str s => simp [fieldShapeOk] at hshape
  | arr xs => simp [fieldShapeOk] at hshape

/-- Witness for C6 at a field violating all four deeper checks at once. -/
theorem field_deeper_checks_all_reported_witness :
    (typeMsg "sections[1].fields[1]"
        ((JVal.obj [("id", .str "ok"), ("label", .str ""), ("type", .num 3),
          ("required", .str "ja"), ("help_text", .null)]).lookupD "type" .null) ∈
      (valField "sections[1].fields[1]" []
        (.obj [("id", .str "ok"), ("label", .str ""), ("type", .num 3),
          ("required", .str "ja"), ("help_text", .null)])).1) ∧
    ("sections[1].fields[1]" ++ ".required moet true of false zijn." ∈
      (valField "sections[1].fields[1]" []
        (.obj [("id", .str "ok"), ("label", .str ""), ("type", .num 3),
          ("required", .str "ja"), ("help_text", .null)])).1) ∧
    ("sections[1].fields[1]" ++ ".label moet een niet-lege string zijn." ∈
      (valField "sections[1].fields[1]" []
        (.obj [("id", .str "ok"), ("label", .str ""), ("type", .num 3),
          ("required", .str "ja"), ("help_text", .null)])).1) ∧
    ("sections[1].fields[1]" ++ ".help_text moet een string zijn (leeg is toegestaan)." ∈
      (valField "sections[1].fields[1]" []
        (.obj [("id", .str "ok"), ("label", .str ""), ("type", .num 3),
          ("required", .str "ja"), ("help_text", .null)])).1) := by
  have h := field_deeper_checks_all_reported "sections[1].fields[1]" []
    (.obj [("id", .str "ok"), ("label", .str ""), ("type", .num 3),
      ("required", .str "ja"), ("help_text", .null)]) rfl rfl
  exact ⟨h.1 rfl, h.2.1 rfl, h.2.2.1 rfl, h.2.2.2 rfl⟩

/-- C6 counterexample: a field with all five keys, a whitespace-only id and
the invalid type `"bogus"` produces only the id error — the type error is
not reported, because the id failure `continue`s past every later check,
contradicting the claim that deeper checks are skipped only on missing
keys. -/
theorem empty_id_skips_type_check :
    validateSpec specEmptyIdBadType =
      .error (.vErrors ["sections[1].fields[1].id moet een niet-lege string zijn."]) ∧
    isAllowedType (.str "bogus") = false :=
  ⟨rfl, rfl⟩

/-! ## Claim C1: duplicate-id accounting.  Infrastructure -/

theorem strHead_dupFieldMsg (x : String) : strHead (dupFieldMsg x) = some 'D' := by
  unfold dupFieldMsg
  exact strHead_append _ (strHead_append _ rfl)

theorem strHead_dupOptionMsg (x : String) : strHead (dupOptionMsg x) = some 'D' := by
  unfold dupOptionMsg
  exact strHead_append _ (strHead_append _ rfl)

theorem dupFieldMsg_inj {x y : String} (h : dupFieldMsg x = dupFieldMsg y) : x = y :=
  strAffix_inj h

theorem dupOptionMsg_inj {x y : String} (h : dupOptionMsg x = dupOptionMsg y) : x = y :=
  strAffix_inj h

theorem dupFieldMsg_at8 (x : String) : (dupFieldMsg x).data[8]? = some 'f' := by
  have h1 : (dupFieldMsg x).data =
      "Dubbele field id gevonden: '".data ++ (x.data ++ "'.".data) := by
    unfold dupFieldMsg
    rw [strData_append, strData_append, List.append_assoc]
  rw [h1, List.getElem?_append_left (by decide)]
  rfl

theorem dupOptionMsg_at8 (x : String) : (dupOptionMsg x).data[8]? = some 'o' := by
  have h1 : (dupOptionMsg x).data =
      "Dubbele option id gevonden: '".data ++ (x.data ++ "'.".data) := by
    unfold dupOptionMsg
    rw [strData_append, strData_append, List.append_assoc]
  rw [h1, List.getElem?_append_left (by decide)]
  rfl

theorem dupFieldMsg_ne_dupOptionMsg (x y : String) : dupFieldMsg x ≠ dupOptionMsg y := by
  intro h
  have h8 := dupFieldMsg_at8 x
  rw [h, dupOptionMsg_at8 y] at h8
  exact absurd h8 (by decide)

theorem dupCnt_nil (x : String) : dupCnt x [] = 0 := rfl

theorem dupCnt_append (x : String) (l₁ l₂ : List String) :
    dupCnt x (l₁ ++ l₂) = dupCnt x l₁ + dupCnt x l₂ := by
  unfold dupCnt
  rw [cnt_append, cnt_append]
  omega

theorem dupCnt_eq_zero_of_heads (x : String) :
    ∀ es : List String, (∀ m ∈ es, strHead m ≠ some 'D') → dupCnt x es = 0 := by
  intro es
  induction es with
  | nil => intro _; rfl
  | cons m rest ih =>
    intro h
    have hm := h m (by simp)
    have h1 : m ≠ dupFieldMsg x := fun e => hm (by rw [e]; exact strHead_dupFieldMsg x)
    have h2 : m ≠ dupOptionMsg x := fun e => hm (by rw [e]; exact strHead_dupOptionMsg x)
    have hrest : dupCnt x rest = 0 := ih (fun m' hm' => h m' (by simp [hm']))
    have hsplit : dupCnt x (m :: rest) = dupCnt x [m] + dupCnt x rest := by
      rw [← dupCnt_append]; rfl
    rw [hsplit, hrest]
    simp [dupCnt, cnt, h1, h2]

theorem ne_nil_of_dupCnt_pos {x : String} {es : List String} (h : 0 < dupCnt x es) :
    es ≠ [] := by
  intro he; subst he; simp [dupCnt, cnt] at h

theorem dupCnt_dupF (x y : String) :
    dupCnt x [dupFieldMsg y] = if y = x then 1 else 0 := by
  have h2 : dupFieldMsg y ≠ dupOptionMsg x := dupFieldMsg_ne_dupOptionMsg y x
  by_cases hxy : y = x
  · subst hxy
    simp [dupCnt, cnt, h2]
  · have h1 : dupFieldMsg y ≠ dupFieldMsg x := fun e => hxy (dupFieldMsg_inj e)
    simp [dupCnt, cnt, h1, h2, hxy]

theorem dupCnt_dupO (x y : String) :
    dupCnt x [dupOptionMsg y] = if y = x then 1 else 0 := by
  have h2 : dupOptionMsg y ≠ dupFieldMsg x := fun e => dupFieldMsg_ne_dupOptionMsg x y e.symm
  by_cases hxy : y = x
  · subst hxy
    simp [dupCnt, cnt, h2]
  · have h1 : dupOptionMsg y ≠ dupOptionMsg x := fun e => hxy (dupOptionMsg_inj e)
    simp [dupCnt, cnt, h1, h2, hxy]

theorem occRel_nil (seen : List String) : OccRel seen [] [] seen := by
  refine ⟨by simp, fun x => ?_⟩
  simp [dupCnt, cnt]

theorem occRel_es_congr {seen occs es es' seenOut : List String}
    (he : es = es') (h : OccRel seen occs es seenOut) : OccRel seen occs es' seenOut :=
  he ▸ h

theorem occRel_occs_congr {seen occs occs' es seenOut : List String}
    (ho : occs = occs') (h : OccRel seen occs es seenOut) : OccRel seen occs' es seenOut :=
  ho ▸ h

theorem occRel_noise {seen occs es seenOut : List String} (ms : List String)
    (hm : ∀ m ∈ ms, strHead m ≠ some 'D') (h : OccRel seen occs es seenOut) :
    OccRel seen occs (ms ++ es) seenOut := by
  refine ⟨h.1, fun x => ?_⟩
  rw [dupCnt_append, dupCnt_eq_zero_of_heads x ms hm]
  simpa using h.2 x

theorem occRel_single_field (seen : List String) (x : String) :
    OccRel seen [x] (if x ∈ seen then [dupFieldMsg x] else [])
      (if x ∈ seen then seen else seen ++ [x]) := by
  constructor
  · intro y
    by_cases hx : x ∈ seen
    · simp only [hx, if_true, List.mem_singleton]
      constructor
      · exact Or.inl
      · intro h
        rcases h with h | h
        · exact h
        · exact h ▸ hx
    · simp [hx]
  · intro z
    by_cases hx : x ∈ seen
    · rw [if_pos hx, dupCnt_dupF]
      by_cases hz : x = z
      · subst hz; simp [hx, cnt]
      · have hz' : ¬ x = z := hz
        simp [cnt, hz']
    · rw [if_neg hx, dupCnt_nil]
      by_cases hz : x = z
      · subst hz; simp [hx, cnt]
      · simp [cnt, hz]

theorem occRel_single_opt (seen : List String) (x : String) :
    OccRel seen [x] (if x ∈ seen then [dupOptionMsg x] else [])
      (if x ∈ seen then seen else seen ++ [x]) := by
  constructor
  · intro y
    by_cases hx : x ∈ seen
    · simp only [hx, if_true, List.mem_singleton]
      constructor
      · exact Or.inl
      · intro h
        rcases h with h | h
        · exact h
        · exact h ▸ hx
    · simp [hx]
  · intro z
    by_cases hx : x ∈ seen
    · rw [if_pos hx, dupCnt_dupO]
      by_cases hz : x = z
      · subst hz; simp [hx, cnt]
      · have hz' : ¬ x = z := hz
        simp [cnt, hz']
    · rw [if_neg hx, dupCnt_nil]
      by_cases hz : x = z
      · subst hz; simp [hx, cnt]
      · simp [cnt, hz]

theorem occRel_comp {seen o1 e1 s1 o2 e2 s2 : List String}
    (h1 : OccRel seen o1 e1 s1) (h2 : OccRel s1 o2 e2 s2) :
    OccRel seen (o1 ++ o2) (e1 ++ e2) s2 := by
  constructor
  · intro y
    rw [h2.1 y, h1.1 y]
    simp [List.mem_append, or_assoc]
  · intro x
    rw [dupCnt_append, h1.2 x, h2.2 x, cnt_append]
    by_cases hs : x ∈ seen
    · have hx1 : x ∈ s1 := (h1.1 x).mpr (Or.inl hs)
      simp [hs, hx1]
    · by_cases ho : x ∈ o1
      · have hx1 : x ∈ s1 := (h1.1 x).mpr (Or.inr ho)
        have hpos : 0 < cnt x o1 := cnt_pos_iff.mpr ho
        simp only [hs, hx1, if_true, if_false]
        omega
      · have hx1 : x ∉ s1 := fun hc => ((h1.1 x).mp hc).elim hs ho
        have hz : cnt x o1 = 0 := by
          by_contra hnz
          exact ho (cnt_pos_iff.mp (Nat.pos_of_ne_zero hnz))
        simp [hs, hx1, hz]

/-! Prefix-head helpers: every message with a `sections[...`-style prefix
starts with `'s'`, hence is never a duplicate-id message. -/

theorem msg_ne_D {P : String} (h : strHead P = some 's') (t : String) :
    strHead (P ++ t) ≠ some 'D' := by
  rw [strHead_append t h]
  decide

theorem strHead_secPfx (i : Nat) : strHead (secPfx i) = some 's' := by
  unfold secPfx
  exact strHead_append _ (strHead_append _ rfl)

theorem strHead_fldPfx {sp : String} (h : strHead sp = some 's') (j : Nat) :
    strHead (fldPfx sp j) = some 's' := by
  unfold fldPfx
  exact strHead_append _ (strHead_append _ (strHead_append _ h))

theorem strHead_optPfx {fp : String} (h : strHead fp = some 's') (k : Nat) :
    strHead (optPfx fp k) = some 's' := by
  unfold optPfx
  exact strHead_append _ (strHead_append _ (strHead_append _ h))

theorem valOpts_occRel {fp : String} (hfp : strHead fp = some 's') :
    ∀ (ovs : List JVal) (k : Nat) (seen : List String),
      OccRel seen (optOccs ovs) (valOpts fp k seen ovs).1 (valOpts fp k seen ovs).2 := by
  intro ovs
  induction ovs with
  | nil =>
    intro k seen
    exact occRel_nil seen
  | cons ov rest ih =>
    intro k seen
    have hop : strHead (optPfx fp k) = some 's' := strHead_optPfx hfp k
    cases ov with
    | obj o =>
      by_cases hk : ((JVal.obj o).hasKey "id" && (JVal.obj o).hasKey "label") = true
      · by_cases hio : isNonemptyStr ((JVal.obj o).lookupD "id" .null) = true
        · have hval1 : (valOpts fp k seen (JVal.obj o :: rest)).1 =
              (if pyStr ((JVal.obj o).lookupD "id" .null) ∈ seen then
                [dupOptionMsg (pyStr ((JVal.obj o).lookupD "id" .null))] else []) ++
              ((if isNonemptyStr ((JVal.obj o).lookupD "label" .null) then []
                else [optPfx fp k ++ ".label moet een niet-lege string zijn."]) ++
               (valOpts fp (k + 1)
                 (if pyStr ((JVal.obj o).lookupD "id" .null) ∈ seen then seen
                  else seen ++ [pyStr ((JVal.obj o).lookupD "id" .null)]) rest).1) := by
            simp [valOpts, hk, hio]
          have hval2 : (valOpts fp k seen (JVal.obj o :: rest)).2 =
              (valOpts fp (k + 1)
                (if pyStr ((JVal.obj o).lookupD "id" .null) ∈ seen then seen
                 else seen ++ [pyStr ((JVal.obj o).lookupD "id" .null)]) rest).2 := by
            simp [valOpts, hk, hio]
          have hocc : optOccs (JVal.obj o :: rest) =
              [pyStr ((JVal.obj o).lookupD "id" .null)] ++ optOccs rest := by
            simp [optOccs, hk, hio]
          rw [hval1, hval2, hocc]
          refine occRel_comp (occRel_single_opt seen _) (occRel_noise _ ?_ (ih (k + 1) _))
          intro m hm
          split at hm
          · simp at hm
          · simp at hm
            subst hm
            exact msg_ne_D hop _
        · have hval1 : (valOpts fp k seen (JVal.obj o :: rest)).1 =
              [optPfx fp k ++ ".id moet een niet-lege string zijn."] ++
                (valOpts fp (k + 1) seen rest).1 := by
            simp [valOpts, hk, hio]
          have hval2 : (valOpts fp k seen (JVal.obj o :: rest)).2 =
              (valOpts fp (k + 1) seen rest).2 := by
            simp [valOpts, hk, hio]
          have hocc : optOccs (JVal.obj o :: rest) = optOccs rest := by
            simp [optOccs, hk, hio]
          rw [hval1, hval2, hocc]
          refine occRel_noise _ ?_ (ih (k + 1) seen)
          intro m hm
          simp at hm
          subst hm
          exact msg_ne_D hop _
      · have hval1 : (valOpts fp k seen (JVal.obj o :: rest)).1 =
            [optPfx fp k ++ " mist 'id' en/of 'label'."] ++
              (valOpts fp (k + 1) seen rest).1 := by
          simp [valOpts, hk]
        have hval2 : (valOpts fp k seen (JVal.obj o :: rest)).2 =
            (valOpts fp (k + 1) seen rest).2 := by
          simp [valOpts, hk]
        have hocc : optOccs (JVal.obj o :: rest) = optOccs rest := by
          simp [optOccs, hk]
        rw [hval1, hval2, hocc]
        refine occRel_noise _ ?_ (ih (k + 1) seen)
        intro m hm
        simp at hm
        subst hm
        exact msg_ne_D hop _
    | null =>
      have hval1 : (valOpts fp k seen (JVal.null :: rest)).1 =
          [optPfx fp k ++ " moet een object zijn."] ++ (valOpts fp (k + 1) seen rest).1 := by
        simp [valOpts]
      have hval2 : (valOpts fp k seen (JVal.null :: rest)).2 =
          (valOpts fp (k + 1) seen rest).2 := by
        simp [valOpts]
      have hocc : optOccs (JVal.null :: rest) = optOccs rest := by simp [optOccs]
      rw [hval1, hval2, hocc]
      refine occRel_noise _ ?_ (ih (k + 1) seen)
      intro m hm
      simp at hm
      subst hm
      exact msg_ne_D hop _
    | bool b =>
      have hval1 : (valOpts fp k seen (JVal.bool b :: rest)).1 =
          [optPfx fp k ++ " moet een object zijn."] ++ (valOpts fp (k + 1) seen rest).1 := by
        simp [valOpts]
      have hval2 : (valOpts fp k seen (JVal.bool b :: rest)).2 =
          (valOpts fp (k + 1) seen rest).2 := by
        simp [valOpts]
      have hocc : optOccs (JVal.bool b :: rest) = optOccs rest := by simp [optOccs]
      rw [hval1, hval2, hocc]
      refine occRel_noise _ ?_ (ih (k + 1) seen)
      intro m hm
      simp at hm
      subst hm
      exact msg_ne_D hop _
    | num q =>
      have hval1 : (valOpts fp k seen (JVal.num q :: rest)).1 =
          [optPfx fp k ++ " moet een object zijn."] ++ (valOpts fp (k + 1) seen rest).1 := by
        simp [valOpts]
      have hval2 : (valOpts fp k seen (JVal.num q :: rest)).2 =
          (valOpts fp (k + 1) seen rest).2 := by
        simp [valOpts]
      have hocc : optOccs (JVal.num q :: rest) = optOccs rest := by simp [optOccs]
      rw [hval1, hval2, hocc]
      refine occRel_noise _ ?_ (ih (k + 1) seen)
      intro m hm
      simp at hm
      subst hm
      exact msg_ne_D hop _
    | str s =>
      have hval1 : (valOpts fp k seen (JVal.str s :: rest)).1 =
          [optPfx fp k ++ " moet een object zijn."] ++ (valOpts fp (k + 1) seen rest).1 := by
        simp [valOpts]
      have hval2 : (valOpts fp k seen (JVal.str s :: rest)).2 =
          (valOpts fp (k + 1) seen rest).2 := by
        simp [valOpts]
      have hocc : optOccs (JVal.str s :: rest) = optOccs rest := by simp [optOccs]
      rw [hval1, hval2, hocc]
      refine occRel_noise _ ?_ (ih (k + 1) seen)
      intro m hm
      simp at hm
      subst hm
      exact msg_ne_D hop _
    | arr xs =>
      have hval1 : (valOpts fp k seen (JVal.arr xs :: rest)).1 =
          [optPfx fp k ++ " moet een object zijn."] ++ (valOpts fp (k + 1) seen rest).1 := by
        simp [valOpts]
      have hval2 : (valOpts fp k seen (JVal.arr xs :: rest)).2 =
          (valOpts fp (k + 1) seen rest).2 := by
        simp [valOpts]
      have hocc : optOccs (JVal.arr xs :: rest) = optOccs rest := by simp [optOccs]
      rw [hval1, hval2, hocc]
      refine occRel_noise _ ?_ (ih (k + 1) seen)
      intro m hm
      simp at hm
      subst hm
      exact msg_ne_D hop _

theorem dropdownErrs_heads {fp : String} (hfp : strHead fp = some 's') (opts : Option JVal) :
    ∀ m ∈ dropdownErrs fp opts, strHead m ≠ some 'D' := by
  intro m hm
  unfold dropdownErrs at hm
  split at hm
  · split at hm
    · simp at hm
    · simp at hm
      subst hm
      exact msg_ne_D hfp _
  · simp at hm
    subst hm
    exact msg_ne_D hfp _

theorem valField_occRel {fp : String} (hfp : strHead fp = some 's')
    (seen : List String) (fv : JVal) :
    OccRel seen (fieldOccs fv) (valField fp seen fv).1 (valField fp seen fv).2 := by
  have hnoiseT : ∀ m ∈ (if isAllowedType (fv.lookupD "type" .null) then []
      else [typeMsg fp (fv.lookupD "type" .null)]), strHead m ≠ some 'D' := by
    intro m hm
    split at hm
    · simp at hm
    · simp at hm
      subst hm
      unfold typeMsg
      exact msg_ne_D (strHead_append _ (strHead_append _ hfp)) _
  have hnoiseR : ∀ m ∈ (if isJBool (fv.lookupD "required" .null) then []
      else [fp ++ ".required moet true of false zijn."]), strHead m ≠ some 'D' := by
    intro m hm
    split at hm
    · simp at hm
    · simp at hm
      subst hm
      exact msg_ne_D hfp _
  have hnoiseL : ∀ m ∈ (if isNonemptyStr (fv.lookupD "label" .null) then []
      else [fp ++ ".label moet een niet-lege string zijn."]), strHead m ≠ some 'D' := by
    intro m hm
    split at hm
    · simp at hm
    · simp at hm
      subst hm
      exact msg_ne_D hfp _
  have hnoiseH : ∀ m ∈ (if isJStr (fv.lookupD "help_text" .null) then []
      else [fp ++ ".help_text moet een string zijn (leeg is toegestaan)."]),
      strHead m ≠ some 'D' := by
    intro m hm
    split at hm
    · simp at hm
    · simp at hm
      subst hm
      exact msg_ne_D hfp _
  have hnoiseD : ∀ m ∈ (if (fv.lookupD "type" .null).isStrEq "dropdown" then
      dropdownErrs fp (fv.lookup "options") else []), strHead m ≠ some 'D' := by
    intro m hm
    split at hm
    · exact dropdownErrs_heads hfp _ m hm
    · simp at hm
  have hnoiseCG : ∀ m ∈ [fp ++ ".options moet een niet-lege lijst zijn voor checkbox_group."],
      strHead m ≠ some 'D' := by
    intro m hm
    simp at hm
    subst hm
    exact msg_ne_D hfp _
  have hnoiseObj : ∀ m ∈ [fp ++ " moet een object zijn."], strHead m ≠ some 'D' := by
    intro m hm
    simp at hm
    subst hm
    exact msg_ne_D hfp _
  cases fv with
  | obj kvs =>
    by_cases hall : (fieldReqKeys.all (fun k => (JVal.obj kvs).hasKey k)) = true
    · by_cases hid : isNonemptyStr ((JVal.obj kvs).lookupD "id" .null) = true
      · by_cases hcg : ((JVal.obj kvs).lookupD "type" .null).isStrEq "checkbox_group" = true
        · cases hopt : (JVal.obj kvs).lookup "options" with
          | some ov =>
            cases ov with
            | arr xs =>
              cases xs with
              | cons o os =>
                have hval1 : (valField fp seen (.obj kvs)).1 =
                    (if pyStr ((JVal.obj kvs).lookupD "id" .null) ∈ seen then
                      [dupFieldMsg (pyStr ((JVal.obj kvs).lookupD "id" .null))] else []) ++
                    (if isAllowedType ((JVal.obj kvs).lookupD "type" .null) then []
                     else [typeMsg fp ((JVal.obj kvs).lookupD "type" .null)]) ++
                    (if isJBool ((JVal.obj kvs).lookupD "required" .null) then []
                     else [fp ++ ".required moet true of false zijn."]) ++
                    (if isNonemptyStr ((JVal.obj kvs).lookupD "label" .null) then []
                     else [fp ++ ".label moet een niet-lege string zijn."]) ++
                    (if isJStr ((JVal.obj kvs).lookupD "help_text" .null) then []
                     else [fp ++ ".help_text moet een string zijn (leeg is toegestaan)."]) ++
                    (if ((JVal.obj kvs).lookupD "type" .null).isStrEq "dropdown" then
                      dropdownErrs fp ((JVal.obj kvs).lookup "options") else []) ++
                    (valOpts fp 1
                      (if pyStr ((JVal.obj kvs).lookupD "id" .null) ∈ seen then seen
                       else seen ++ [pyStr ((JVal.obj kvs).lookupD "id" .null)])
                      (o :: os)).1 := by
                  simp [valField, hall, hid, hcg, hopt]
                have hval2 : (valField fp seen (.obj kvs)).2 =
                    (valOpts fp 1
                      (if pyStr ((JVal.obj kvs).lookupD "id" .null) ∈ seen then seen
                       else seen ++ [pyStr ((JVal.obj kvs).lookupD "id" .null)])
                      (o :: os)).2 := by
                  simp [valField, hall, hid, hcg, hopt]
                have hocc : fieldOccs (.obj kvs) =
                    [pyStr ((JVal.obj kvs).lookupD "id" .null)] ++ optOccs (o :: os) := by
                  simp [fieldOccs, hall, hid, hcg, hopt]
                rw [hval1, hval2, hocc]
                refine occRel_es_congr ?_ (occRel_comp (occRel_single_field seen _)
                  (occRel_noise _ hnoiseT (occRel_noise _ hnoiseR (occRel_noise _ hnoiseL
                    (occRel_noise _ hnoiseH (occRel_noise _ hnoiseD
                      (valOpts_occRel hfp (o :: os) 1 _)))))))
                simp
              | nil =>
                have hval1 : (valField fp seen (.obj kvs)).1 =
                    (if pyStr ((JVal.obj kvs).lookupD "id" .null) ∈ seen then
                      [dupFieldMsg (pyStr ((JVal.obj kvs).lookupD "id" .null))] else []) ++
                    (if isAllowedType ((JVal.obj kvs).lookupD "type" .null) then []
                     else [typeMsg fp ((JVal.obj kvs).lookupD "type" .null)]) ++
                    (if isJBool ((JVal.obj kvs).lookupD "required" .null) then []
                     else [fp ++ ".required moet true of false zijn."]) ++
                    (if isNonemptyStr ((JVal.obj kvs).lookupD "label" .null) then []
                     else [fp ++ ".label moet een niet-lege string zijn."]) ++
                    (if isJStr ((JVal.obj kvs).lookupD "help_text" .null) then []
                     else [fp ++ ".help_text moet een string zijn (leeg is toegestaan)."]) ++
                    (if ((JVal.obj kvs).lookupD "type" .null).isStrEq "dropdown" then
                      dropdownErrs fp ((JVal.obj kvs).lookup "options") else []) ++
                    [fp ++ ".options moet een niet-lege lijst zijn voor checkbox_group."] ++
                    [] := by
                  simp [valField, hall, hid, hcg, hopt]
                have hval2 : (valField fp seen (.obj kvs)).2 =
                    (if pyStr ((JVal.obj kvs).lookupD "id" .null) ∈ seen then seen
                     else seen ++ [pyStr ((JVal.obj kvs).lookupD "id" .null)]) := by
                  simp [valField, hall, hid, hcg, hopt]
                have hocc : fieldOccs (.obj kvs) =
                    [pyStr ((JVal.obj kvs).lookupD "id" .null)] ++ [] := by
                  simp [fieldOccs, hall, hid, hcg, hopt]
                rw [hval1, hval2, hocc]
                refine occRel_es_congr ?_ (occRel_comp (occRel_single_field seen _)
                  (occRel_noise _ hnoiseT (occRel_noise _ hnoiseR (occRel_noise _ hnoiseL
                    (occRel_noise _ hnoiseH (occRel_noise _ hnoiseD
                      (occRel_noise _ hnoiseCG (occRel_nil _))))))))
                simp
            | null =>
              have hval1 : (valField fp seen (.obj kvs)).1 =
                  (if pyStr ((JVal.obj kvs).lookupD "id" .null) ∈ seen then
                    [dupFieldMsg (pyStr ((JVal.obj kvs).lookupD "id" .null))] else []) ++
                  (if isAllowedType ((JVal.obj kvs).lookupD "type" .null) then []
                   else [typeMsg fp ((JVal.obj kvs).lookupD "type" .null)]) ++
                  (if isJBool ((JVal.obj kvs).lookupD "required" .null) then []
                   else [fp ++ ".required moet true of false zijn."]) ++
                  (if isNonemptyStr ((JVal.obj kvs).lookupD "label" .null) then []
                   else [fp ++ ".label moet een niet-lege string zijn."]) ++
                  (if isJStr ((JVal.obj kvs).lookupD "help_text" .null) then []
                   else [fp ++ ".help_text moet een string zijn (leeg is toegestaan)."]) ++
                  (if ((JVal.obj kvs).lookupD "type" .null).isStrEq "dropdown" then
                    dropdownErrs fp ((JVal.obj kvs).lookup "options") else []) ++
                  [fp ++ ".options moet een niet-lege lijst zijn voor checkbox_group."] ++
                  [] := by
                simp [valField, hall, hid, hcg, hopt]
              have hval2 : (valField fp seen (.obj kvs)).2 =
                  (if pyStr ((JVal.obj kvs).lookupD "id" .null) ∈ seen then seen
                   else seen ++ [pyStr ((JVal.obj kvs).lookupD "id" .null)]) := by
                simp [valField, hall, hid, hcg, hopt]
              have hocc : fieldOccs (.obj kvs) =
                  [pyStr ((JVal.obj kvs).lookupD "id" .null)] ++ [] := by
                simp [fieldOccs, hall, hid, hcg, hopt]
              rw [hval1, hval2, hocc]
              refine occRel_es_congr ?_ (occRel_comp (occRel_single_field seen _)
                (occRel_noise _ hnoiseT (occRel_noise _ hnoiseR (occRel_noise _ hnoiseL
                  (occRel_noise _ hnoiseH (occRel_noise _ hnoiseD
                    (occRel_noise _ hnoiseCG (occRel_nil _))))))))
              simp
            | bool b =>
              have hval1 : (valField fp seen (.obj kvs)).1 =
                  (if pyStr ((JVal.obj kvs).lookupD "id" .null) ∈ seen then
                    [dupFieldMsg (pyStr ((JVal.obj kvs).lookupD "id" .null))] else []) ++
                  (if isAllowedType ((JVal.obj kvs).lookupD "type" .null) then []
                   else [typeMsg fp ((JVal.obj kvs).lookupD "type" .null)]) ++
                  (if isJBool ((JVal.obj kvs).lookupD "required" .null) then []
                   else [fp ++ ".required moet true of false zijn."]) ++
                  (if isNonemptyStr ((JVal.obj kvs).lookupD "label" .null) then []
                   else [fp ++ ".label moet een niet-lege string zijn."]) ++
                  (if isJStr ((JVal.obj kvs).lookupD "help_text" .null) then []
                   else [fp ++ ".help_text moet een string zijn (leeg is toegestaan)."]) ++
                  (if ((JVal.obj kvs).lookupD "type" .null).isStrEq "dropdown" then
                    dropdownErrs fp ((JVal.obj kvs).lookup "options") else []) ++
                  [fp ++ ".options moet een niet-lege lijst zijn voor checkbox_group."] ++
                  [] := by
                simp [valField, hall, hid, hcg, hopt]
              have hval2 : (valField fp seen (.obj kvs)).2 =
                  (if pyStr ((JVal.obj kvs).lookupD "id" .null) ∈ seen then seen
                   else seen ++ [pyStr ((JVal.obj kvs).lookupD "id" .null)]) := by
                simp [valField, hall, hid, hcg, hopt]
              have hocc : fieldOccs (.obj kvs) =
                  [pyStr ((JVal.obj kvs).lookupD "id" .null)] ++ [] := by
                simp [fieldOccs, hall, hid, hcg, hopt]
              rw [hval1, hval2, hocc]
              refine occRel_es_congr ?_ (occRel_comp (occRel_single_field seen _)
                (occRel_noise _ hnoiseT (occRel_noise _ hnoiseR (occRel_noise _ hnoiseL
                  (occRel_noise _ hnoiseH (occRel_noise _ hnoiseD
                    (occRel_noise _ hnoiseCG (occRel_nil _))))))))
              simp
            | num q =>
              have hval1 : (valField fp seen (.obj kvs)).1 =
                  (if pyStr ((JVal.obj kvs).lookupD "id" .null) ∈ seen then
                    [dupFieldMsg (pyStr ((JVal.obj kvs).lookupD "id" .null))] else []) ++
                  (if isAllowedType ((JVal.obj kvs).lookupD "type" .null) then []
                   else [typeMsg fp ((JVal.obj kvs).lookupD "type" .null)]) ++
                  (if isJBool ((JVal.obj kvs).lookupD "required" .null) then []
                   else [fp ++ ".required moet true of false zijn."]) ++
                  (if isNonemptyStr ((JVal.obj kvs).lookupD "label" .null) then []
                   else [fp ++ ".label moet een niet-lege string zijn."]) ++
                  (if isJStr ((JVal.obj kvs).lookupD "help_text" .null) then []
                   else [fp ++ ".help_text moet een string zijn (leeg is toegestaan)."]) ++
                  (if ((JVal.obj kvs).lookupD "type" .null).isStrEq "dropdown" then
                    dropdownErrs fp ((JVal.obj kvs).lookup "options") else []) ++
                  [fp ++ ".options moet een niet-lege lijst zijn voor checkbox_group."] ++
                  [] := by
                simp [valField, hall, hid, hcg, hopt]
              have hval2 : (valField fp seen (.obj kvs)).2 =
                  (if pyStr ((JVal.obj kvs).lookupD "id" .null) ∈ seen then seen
                   else seen ++ [pyStr ((JVal.obj kvs).lookupD "id" .null)]) := by
                simp [valField, hall, hid, hcg, hopt]
              have hocc : fieldOccs (.obj kvs) =
                  [pyStr ((JVal.obj kvs).lookupD "id" .null)] ++ [] := by
                simp [fieldOccs, hall, hid, hcg, hopt]
              rw [hval1, hval2, hocc]
              refine occRel_es_congr ?_ (occRel_comp (occRel_single_field seen _)
                (occRel_noise _ hnoiseT (occRel_noise _ hnoiseR (occRel_noise _ hnoiseL
                  (occRel_noise _ hnoiseH (occRel_noise _ hnoiseD
                    (occRel_noise _ hnoiseCG (occRel_nil _))))))))
              simp
            | str s =>
              have hval1 : (valField fp seen (.obj kvs)).1 =
                  (if pyStr ((JVal.obj kvs).lookupD "id" .null) ∈ seen then
                    [dupFieldMsg (pyStr ((JVal.obj kvs).lookupD "id" .null))] else []) ++
                  (if isAllowedType ((JVal.obj kvs).lookupD "type" .null) then []
                   else [typeMsg fp ((JVal.obj kvs).lookupD "type" .null)]) ++
                  (if isJBool ((JVal.obj kvs).lookupD "required" .null) then []
                   else [fp ++ ".required moet true of false zijn."]) ++
                  (if isNonemptyStr ((JVal.obj kvs).lookupD "label" .null) then []
                   else [fp ++ ".label moet een niet-lege string zijn."]) ++
                  (if isJStr ((JVal.obj kvs).lookupD "help_text" .null) then []
                   else [fp ++ ".help_text moet een string zijn (leeg is toegestaan)."]) ++
                  (if ((JVal.obj kvs).lookupD "type" .null).isStrEq "dropdown" then
                    dropdownErrs fp ((JVal.obj kvs).lookup "options") else []) ++
                  [fp ++ ".options moet een niet-lege lijst zijn voor checkbox_group."] ++
                  [] := by
                simp [valField, hall, hid, hcg, hopt]
              have hval2 : (valField fp seen (.obj kvs)).2 =
                  (if pyStr ((JVal.obj kvs).lookupD "id" .null) ∈ seen then seen
                   else seen ++ [pyStr ((JVal.obj kvs).lookupD "id" .null)]) := by
                simp [valField, hall, hid, hcg, hopt]
              have hocc : fieldOccs (.obj kvs) =
                  [pyStr ((JVal.obj kvs).lookupD "id" .null)] ++ [] := by
                simp [fieldOccs, hall, hid, hcg, hopt]
              rw [hval1, hval2, hocc]
              refine occRel_es_congr ?_ (occRel_comp (occRel_single_field seen _)
                (occRel_noise _ hnoiseT (occRel_noise _ hnoiseR (occRel_noise _ hnoiseL
                  (occRel_noise _ hnoiseH (occRel_noise _ hnoiseD
                    (occRel_noise _ hnoiseCG (occRel_nil _))))))))
              simp
            | obj o =>
              have hval1 : (valField fp seen (.obj kvs)).1 =
                  (if pyStr ((JVal.obj kvs).lookupD "id" .null) ∈ seen then
                    [dupFieldMsg (pyStr ((JVal.obj kvs).lookupD "id" .null))] else []) ++
                  (if isAllowedType ((JVal.obj kvs).lookupD "type" .null) then []
                   else [typeMsg fp ((JVal.obj kvs).lookupD "type" .null)]) ++
                  (if isJBool ((JVal.obj kvs).lookupD "required" .null) then []
                   else [fp ++ ".required moet true of false zijn."]) ++
                  (if isNonemptyStr ((JVal.obj kvs).lookupD "label" .null) then []
                   else [fp ++ ".label moet een niet-lege string zijn."]) ++
                  (if isJStr ((JVal.obj kvs).lookupD "help_text" .null) then []
                   else [fp ++ ".help_text moet een string zijn (leeg is toegestaan)."]) ++
                  (if ((JVal.obj kvs).lookupD "type" .null).isStrEq "dropdown" then
                    dropdownErrs fp ((JVal.obj kvs).lookup "options") else []) ++
                  [fp ++ ".options moet een niet-lege lijst zijn voor checkbox_group."] ++
                  [] := by
                simp [valField, hall, hid, hcg, hopt]
              have hval2 : (valField fp seen (.obj kvs)).2 =
                  (if pyStr ((JVal.obj kvs).lookupD "id" .null) ∈ seen then seen
                   else seen ++ [pyStr ((JVal.obj kvs).lookupD "id" .null)]) := by
                simp [valField, hall, hid, hcg, hopt]
              have hocc : fieldOccs (.obj kvs) =
                  [pyStr ((JVal.obj kvs).lookupD "id" .null)] ++ [] := by
                simp [fieldOccs, hall, hid, hcg, hopt]
              rw [hval1, hval2, hocc]
              refine occRel_es_congr ?_ (occRel_comp (occRel_single_field seen _)
                (occRel_noise _ hnoiseT (occRel_noise _ hnoiseR (occRel_noise _ hnoiseL
                  (occRel_noise _ hnoiseH (occRel_noise _ hnoiseD
                    (occRel_noise _ hnoiseCG (occRel_nil _))))))))
              simp
          | none =>
            have hval1 : (valField fp seen (.obj kvs)).1 =
                (if pyStr ((JVal.obj kvs).lookupD "id" .null) ∈ seen then
                  [dupFieldMsg (pyStr ((JVal.obj kvs).lookupD "id" .null))] else []) ++
                (if isAllowedType ((JVal.obj kvs).lookupD "type" .null) then []
                 else [typeMsg fp ((JVal.obj kvs).lookupD "type" .null)]) ++
                (if isJBool ((JVal.obj kvs).lookupD "required" .null) then []
                 else [fp ++ ".required moet true of false zijn."]) ++
                (if isNonemptyStr ((JVal.obj kvs).lookupD "label" .null) then []
                 else [fp ++ ".label moet een niet-lege string zijn."]) ++
                (if isJStr ((JVal.obj kvs).lookupD "help_text" .null) then []
                 else [fp ++ ".help_text moet een string zijn (leeg is toegestaan)."]) ++
                (if ((JVal.obj kvs).lookupD "type" .null).isStrEq "dropdown" then
                  dropdownErrs fp ((JVal.obj kvs).lookup "options") else []) ++
                [fp ++ ".options moet een niet-lege lijst zijn voor checkbox_group."] ++
                [] := by
              simp [valField, hall, hid, hcg, hopt]
            have hval2 : (valField fp seen (.obj kvs)).2 =
                (if pyStr ((JVal.obj kvs).lookupD "id" .null) ∈ seen then seen
                 else seen ++ [pyStr ((JVal.obj kvs).lookupD "id" .null)]) := by
              simp [valField, hall, hid, hcg, hopt]
            have hocc : fieldOccs (.obj kvs) =
                [pyStr ((JVal.obj kvs).lookupD "id" .null)] ++ [] := by
              simp [fieldOccs, hall, hid, hcg, hopt]
            rw [hval1, hval2, hocc]
            refine occRel_es_congr ?_ (occRel_comp (occRel_single_field seen _)
              (occRel_noise _ hnoiseT (occRel_noise _ hnoiseR (occRel_noise _ hnoiseL
                (occRel_noise _ hnoiseH (occRel_noise _ hnoiseD
                  (occRel_noise _ hnoiseCG (occRel_nil _))))))))
            simp
        · have hval1 : (valField fp seen (.obj kvs)).1 =
              (if pyStr ((JVal.obj kvs).lookupD "id" .null) ∈ seen then
                [dupFieldMsg (pyStr ((JVal.obj kvs).lookupD "id" .null))] else []) ++
              (if isAllowedType ((JVal.obj kvs).lookupD "type" .null) then []
               else [typeMsg fp ((JVal.obj kvs).lookupD "type" .null)]) ++
              (if isJBool ((JVal.obj kvs).lookupD "required" .null) then []
               else [fp ++ ".required moet true of false zijn."]) ++
              (if isNonemptyStr ((JVal.obj kvs).lookupD "label" .null) then []
               else [fp ++ ".label moet een niet-lege string zijn."]) ++
              (if isJStr ((JVal.obj kvs).lookupD "help_text" .null) then []
               else [fp ++ ".help_text moet een string zijn (leeg is toegestaan)."]) ++
              (if ((JVal.obj kvs).lookupD "type" .null).isStrEq "dropdown" then
                dropdownErrs fp ((JVal.obj kvs).lookup "options") else []) ++
              [] := by
            simp [valField, hall, hid, hcg]
          have hval2 : (valField fp seen (.obj kvs)).2 =
              (if pyStr ((JVal.obj kvs).lookupD "id" .null) ∈ seen then seen
               else seen ++ [pyStr ((JVal.obj kvs).lookupD "id" .null)]) := by
            simp [valField, hall, hid, hcg]
          have hocc : fieldOccs (.obj kvs) =
              [pyStr ((JVal.obj kvs).lookupD "id" .null)] ++ [] := by
            simp [fieldOccs, hall, hid, hcg]
          rw [hval1, hval2, hocc]
          refine occRel_es_congr ?_ (occRel_comp (occRel_single_field seen _)
            (occRel_noise _ hnoiseT (occRel_noise _ hnoiseR (occRel_noise _ hnoiseL
              (occRel_noise _ hnoiseH (occRel_noise _ hnoiseD (occRel_nil _)))))))
          simp
      · have hval1 : (valField fp seen (.obj kvs)).1 =
            [fp ++ ".id moet een niet-lege string zijn."] ++ [] := by
          simp [valField, hall, hid]
        have hval2 : (valField fp seen (.obj kvs)).2 = seen := by
          simp [valField, hall, hid]
        have hocc : fieldOccs (.obj kvs) = ([] : List String) := by
          simp [fieldOccs, hall, hid]
        rw [hval1, hval2, hocc]
        refine occRel_noise _ ?_ (occRel_nil _)
        intro m hm
        simp at hm
        subst hm
        exact msg_ne_D hfp _
    · have hval1 : (valField fp seen (.obj kvs)).1 =
          ((fieldReqKeys.filter (fun k => !(JVal.obj kvs).hasKey k)).map
            (fun k => fp ++ ": ontbrekende key '" ++ k ++ "'.")) ++ [] := by
        simp [valField, hall]
      have hval2 : (valField fp seen (.obj kvs)).2 = seen := by
        simp [valField, hall]
      have hocc : fieldOccs (.obj kvs) = ([] : List String) := by
        simp [fieldOccs, hall]
      rw [hval1, hval2, hocc]
      refine occRel_noise _ ?_ (occRel_nil _)
      intro m hm
      simp at hm
      obtain ⟨kk, hkk, rfl⟩ := hm
      exact msg_ne_D (strHead_append _ (strHead_append _ hfp)) _
  | null =>
    refine occRel_es_congr (by simp [valField]) (occRel_noise [fp ++ " moet een object zijn."] hnoiseObj (occRel_nil seen))
  | bool b =>
    refine occRel_es_congr (by simp [valField]) (occRel_noise [fp ++ " moet een object zijn."] hnoiseObj (occRel_nil seen))
  | num q =>
    refine occRel_es_congr (by simp [valField]) (occRel_noise [fp ++ " moet een object zijn."] hnoiseObj (occRel_nil seen))
  | str s =>
    refine occRel_es_congr (by simp [valField]) (occRel_noise [fp ++ " moet een object zijn."] hnoiseObj (occRel_nil seen))
  | arr xs =>
    refine occRel_es_congr (by simp [valField]) (occRel_noise [fp ++ " moet een object zijn."] hnoiseObj (occRel_nil seen))

theorem valFields_occRel {sp : String} (hsp : strHead sp = some 's') :
    ∀ (fvs : List JVal) (j : Nat) (seen : List String),
      OccRel seen (fieldsOccs fvs) (valFields sp j seen fvs).1 (valFields sp j seen fvs).2 := by
  intro fvs
  induction fvs with
  | nil => intro j seen; exact occRel_nil seen
  | cons fv rest ih =>
    intro j seen
    have hval1 : (valFields sp j seen (fv :: rest)).1 =
        (valField (fldPfx sp j) seen fv).1 ++
          (valFields sp (j + 1) (valField (fldPfx sp j) seen fv).2 rest).1 := by
      simp [valFields]
    have hval2 : (valFields sp j seen (fv :: rest)).2 =
        (valFields sp (j + 1) (valField (fldPfx sp j) seen fv).2 rest).2 := by
      simp [valFields]
    have hocc : fieldsOccs (fv :: rest) = fieldOccs fv ++ fieldsOccs rest := rfl
    rw [hval1, hval2, hocc]
    exact occRel_comp (valField_occRel (strHead_fldPfx hsp j) seen fv) (ih (j + 1) _)

theorem valSection_occRel (i : Nat) (seen : List String) (sv : JVal) :
    OccRel seen (sectionOccs sv) (valSection i seen sv).1 (valSection i seen sv).2 := by
  have hsp : strHead (secPfx i) = some 's' := strHead_secPfx i
  have hnoiseObj : ∀ m ∈ [secPfx i ++ " moet een object zijn."], strHead m ≠ some 'D' := by
    intro m hm
    simp at hm
    subst hm
    exact msg_ne_D hsp _
  cases sv with
  | obj kvs =>
    have hmiss : ∀ m ∈ ((["id", "title", "fields"].filter
        (fun k => !(JVal.obj kvs).hasKey k)).map
        (fun k => secPfx i ++ ": ontbrekende key '" ++ k ++ "'.")), strHead m ≠ some 'D' := by
      intro m hm
      simp at hm
      obtain ⟨kk, hkk, rfl⟩ := hm
      exact msg_ne_D (strHead_append _ (strHead_append _ hsp)) _
    have hidE : ∀ m ∈ (if isNonemptyStr ((JVal.obj kvs).lookupD "id" .null) then []
        else [secPfx i ++ ".id moet een niet-lege string zijn."]), strHead m ≠ some 'D' := by
      intro m hm
      split at hm
      · simp at hm
      · simp at hm
        subst hm
        exact msg_ne_D hsp _
    have htiE : ∀ m ∈ (if isNonemptyStr ((JVal.obj kvs).lookupD "title" .null) then []
        else [secPfx i ++ ".title moet een niet-lege string zijn."]), strHead m ≠ some 'D' := by
      intro m hm
      split at hm
      · simp at hm
      · simp at hm
        subst hm
        exact msg_ne_D hsp _
    have hflE : ∀ m ∈ [secPfx i ++ ".fields moet een niet-lege lijst zijn."],
        strHead m ≠ some 'D' := by
      intro m hm
      simp at hm
      subst hm
      exact msg_ne_D hsp _
    cases hfl : (JVal.obj kvs).lookup "fields" with
    | some fv =>
      cases fv with
      | arr xs =>
        cases xs with
        | cons f fs =>
          have hval1 : (valSection i seen (.obj kvs)).1 =
              ((["id", "title", "fields"].filter
                (fun k => !(JVal.obj kvs).hasKey k)).map
                (fun k => secPfx i ++ ": ontbrekende key '" ++ k ++ "'.")) ++
              (if isNonemptyStr ((JVal.obj kvs).lookupD "id" .null) then []
               else [secPfx i ++ ".id moet een niet-lege string zijn."]) ++
              (if isNonemptyStr ((JVal.obj kvs).lookupD "title" .null) then []
               else [secPfx i ++ ".title moet een niet-lege string zijn."]) ++
              (valFields (secPfx i) 1 seen (f :: fs)).1 := by
            simp [valSection, hfl]
          have hval2 : (valSection i seen (.obj kvs)).2 =
              (valFields (secPfx i) 1 seen (f :: fs)).2 := by
            simp [valSection, hfl]
          have hocc : sectionOccs (.obj kvs) = fieldsOccs (f :: fs) := by
            simp [sectionOccs, hfl]
          rw [hval1, hval2, hocc]
          refine occRel_es_congr ?_ (occRel_noise _ hmiss (occRel_noise _ hidE
            (occRel_noise _ htiE (valFields_occRel hsp (f :: fs) 1 seen))))
          simp
        | nil =>
          have hval1 : (valSection i seen (.obj kvs)).1 =
              ((["id", "title", "fields"].filter
                (fun k => !(JVal.obj kvs).hasKey k)).map
                (fun k => secPfx i ++ ": ontbrekende key '" ++ k ++ "'.")) ++
              (if isNonemptyStr ((JVal.obj kvs).lookupD "id" .null) then []
               else [secPfx i ++ ".id moet een niet-lege string zijn."]) ++
              (if isNonemptyStr ((JVal.obj kvs).lookupD "title" .null) then []
               else [secPfx i ++ ".title moet een niet-lege string zijn."]) ++
              [secPfx i ++ ".fields moet een niet-lege lijst zijn."] ++ [] := by
            simp [valSection, hfl]
          have hval2 : (valSection i seen (.obj kvs)).2 = seen := by
            simp [valSection, hfl]
          have hocc : sectionOccs (.obj kvs) = ([] : List String) := by
            simp [sectionOccs, hfl]
          rw [hval1, hval2, hocc]
          refine occRel_es_congr ?_ (occRel_noise _ hmiss (occRel_noise _ hidE
            (occRel_noise _ htiE (occRel_noise _ hflE (occRel_nil seen)))))
          simp
      | null =>
        have hval1 : (valSection i seen (.obj kvs)).1 =
            ((["id", "title", "fields"].filter
              (fun k => !(JVal.obj kvs).hasKey k)).map
              (fun k => secPfx i ++ ": ontbrekende key '" ++ k ++ "'.")) ++
            (if isNonemptyStr ((JVal.obj kvs).lookupD "id" .null) then []
             else [secPfx i ++ ".id moet een niet-lege string zijn."]) ++
            (if isNonemptyStr ((JVal.obj kvs).lookupD "title" .null) then []
             else [secPfx i ++ ".title moet een niet-lege string zijn."]) ++
            [secPfx i ++ ".fields moet een niet-lege lijst zijn."] ++ [] := by
          simp [valSection, hfl]
        have hval2 : (valSection i seen (.obj kvs)).2 = seen := by
          simp [valSection, hfl]
        have hocc : sectionOccs (.obj kvs) = ([] : List String) := by
          simp [sectionOccs, hfl]
        rw [hval1, hval2, hocc]
        refine occRel_es_congr ?_ (occRel_noise _ hmiss (occRel_noise _ hidE
          (occRel_noise _ htiE (occRel_noise _ hflE (occRel_nil seen)))))
        simp
      | bool b =>
        have hval1 : (valSection i seen (.obj kvs)).1 =
            ((["id", "title", "fields"].filter
              (fun k => !(JVal.obj kvs).hasKey k)).map
              (fun k => secPfx i ++ ": ontbrekende key '" ++ k ++ "'.")) ++
            (if isNonemptyStr ((JVal.obj kvs).lookupD "id" .null) then []
             else [secPfx i ++ ".id moet een niet-lege string zijn."]) ++
            (if isNonemptyStr ((JVal.obj kvs).lookupD "title" .null) then []
             else [secPfx i ++ ".title moet een niet-lege string zijn."]) ++
            [secPfx i ++ ".fields moet een niet-lege lijst zijn."] ++ [] := by
          simp [valSection, hfl]
        have hval2 : (valSection i seen (.obj kvs)).2 = seen := by
          simp [valSection, hfl]
        have hocc : sectionOccs (.obj kvs) = ([] : List String) := by
          simp [sectionOccs, hfl]
        rw [hval1, hval2, hocc]
        refine occRel_es_congr ?_ (occRel_noise _ hmiss (occRel_noise _ hidE
          (occRel_noise _ htiE (occRel_noise _ hflE (occRel_nil seen)))))
        simp
      | num q =>
        have hval1 : (valSection i seen (.obj kvs)).1 =
            ((["id", "title", "fields"].filter
              (fun k => !(JVal.obj kvs).hasKey k)).map
              (fun k => secPfx i ++ ": ontbrekende key '" ++ k ++ "'.")) ++
            (if isNonemptyStr ((JVal.obj kvs).lookupD "id" .null) then []
             else [secPfx i ++ ".id moet een niet-lege string zijn."]) ++
            (if isNonemptyStr ((JVal.obj kvs).lookupD "title" .null) then []
             else [secPfx i ++ ".title moet een niet-lege string zijn."]) ++
            [secPfx i ++ ".fields moet een niet-lege lijst zijn."] ++ [] := by
          simp [valSection, hfl]
        have hval2 : (valSection i seen (.obj kvs)).2 = seen := by
          simp [valSection, hfl]
        have hocc : sectionOccs (.obj kvs) = ([] : List String) := by
          simp [sectionOccs, hfl]
        rw [hval1, hval2, hocc]
        refine occRel_es_congr ?_ (occRel_noise _ hmiss (occRel_noise _ hidE
          (occRel_noise _ htiE (occRel_noise _ hflE (occRel_nil seen)))))
        simp
      | str s =>
        have hval1 : (valSection i seen (.obj kvs)).1 =
            ((["id", "title", "fields"].filter
              (fun k => !(JVal.obj kvs).hasKey k)).map
              (fun k => secPfx i ++ ": ontbrekende key '" ++ k ++ "'.")) ++
            (if isNonemptyStr ((JVal.obj kvs).lookupD "id" .null) then []
             else [secPfx i ++ ".id moet een niet-lege string zijn."]) ++
            (if isNonemptyStr ((JVal.obj kvs).lookupD "title" .null) then []
             else [secPfx i ++ ".title moet een niet-lege string zijn."]) ++
            [secPfx i ++ ".fields moet een niet-lege lijst zijn."] ++ [] := by
          simp [valSection, hfl]
        have hval2 : (valSection i seen (.obj kvs)).2 = seen := by
          simp [valSection, hfl]
        have hocc : sectionOccs (.obj kvs) = ([] : List String) := by
          simp [sectionOccs, hfl]
        rw [hval1, hval2, hocc]
        refine occRel_es_congr ?_ (occRel_noise _ hmiss (occRel_noise _ hidE
          (occRel_noise _ htiE (occRel_noise _ hflE (occRel_nil seen)))))
        simp
      | obj o =>
        have hval1 : (valSection i seen (.obj kvs)).1 =
            ((["id", "title", "fields"].filter
              (fun k => !(JVal.obj kvs).hasKey k)).map
              (fun k => secPfx i ++ ": ontbrekende key '" ++ k ++ "'.")) ++
            (if isNonemptyStr ((JVal.obj kvs).lookupD "id" .null) then []
             else [secPfx i ++ ".id moet een niet-lege string zijn."]) ++
            (if isNonemptyStr ((JVal.obj kvs).lookupD "title" .null) then []
             else [secPfx i ++ ".title moet een niet-lege string zijn."]) ++
            [secPfx i ++ ".fields moet een niet-lege lijst zijn."] ++ [] := by
          simp [valSection, hfl]
        have hval2 : (valSection i seen (.obj kvs)).2 = seen := by
          simp [valSection, hfl]
        have hocc : sectionOccs (.obj kvs) = ([] : List String) := by
          simp [sectionOccs, hfl]
        rw [hval1, hval2, hocc]
        refine occRel_es_congr ?_ (occRel_noise _ hmiss (occRel_noise _ hidE
          (occRel_noise _ htiE (occRel_noise _ hflE (occRel_nil seen)))))
        simp
    | none =>
      have hval1 : (valSection i seen (.obj kvs)).1 =
          ((["id", "title", "fields"].filter
            (fun k => !(JVal.obj kvs).hasKey k)).map
            (fun k => secPfx i ++ ": ontbrekende key '" ++ k ++ "'.")) ++
          (if isNonemptyStr ((JVal.obj kvs).lookupD "id" .null) then []
           else [secPfx i ++ ".id moet een niet-lege string zijn."]) ++
          (if isNonemptyStr ((JVal.obj kvs).lookupD "title" .null) then []
           else [secPfx i ++ ".title moet een niet-lege string zijn."]) ++
          [secPfx i ++ ".fields moet een niet-lege lijst zijn."] ++ [] := by
        simp [valSection, hfl]
      have hval2 : (valSection i seen (.obj kvs)).2 = seen := by
        simp [valSection, hfl]
      have hocc : sectionOccs (.obj kvs) = ([] : List String) := by
        simp [sectionOccs, hfl]
      rw [hval1, hval2, hocc]
      refine occRel_es_congr ?_ (occRel_noise _ hmiss (occRel_noise _ hidE
        (occRel_noise _ htiE (occRel_noise _ hflE (occRel_nil seen)))))
      simp
  | null =>
    refine occRel_es_congr (by simp [valSection]) (occRel_noise
      [secPfx i ++ " moet een object zijn."] hnoiseObj (occRel_nil seen))
  | bool b =>
    refine occRel_es_congr (by simp [valSection]) (occRel_noise
      [secPfx i ++ " moet een object zijn."] hnoiseObj (occRel_nil seen))
  | num q =>
    refine occRel_es_congr (by simp [valSection]) (occRel_noise
      [secPfx i ++ " moet een object zijn."] hnoiseObj (occRel_nil seen))
  | str s =>
    refine occRel_es_congr (by simp [valSection]) (occRel_noise
      [secPfx i ++ " moet een object zijn."] hnoiseObj (occRel_nil seen))
  | arr xs =>
    refine occRel_es_congr (by simp [valSection]) (occRel_noise
      [secPfx i ++ " moet een object zijn."] hnoiseObj (occRel_nil seen))

theorem valSections_occRel :
    ∀ (svs : List JVal) (i : Nat) (seen : List String),
      OccRel seen (sectionsOccs svs) (valSections i seen svs).1 (valSections i seen svs).2 := by
  intro svs
  induction svs with
  | nil => intro i seen; exact occRel_nil seen
  | cons sv rest ih =>
    intro i seen
    have hval1 : (valSections i seen (sv :: rest)).1 =
        (valSection i seen sv).1 ++ (valSections (i + 1) (valSection i seen sv).2 rest).1 := by
      simp [valSections]
    have hval2 : (valSections i seen (sv :: rest)).2 =
        (valSections (i + 1) (valSection i seen sv).2 rest).2 := by
      simp [valSections]
    have hocc : sectionsOccs (sv :: rest) = sectionOccs sv ++ sectionsOccs rest := rfl
    rw [hval1, hval2, hocc]
    exact occRel_comp (valSection_occRel i seen sv) (ih (i + 1) _)

theorem headNe_D {P : String} {c : Char} (h : strHead P = some c) (hc : c ≠ 'D')
    (t : String) : strHead (P ++ t) ≠ some 'D' := by
  rw [strHead_append t h]
  intro e
  exact hc (Option.some.inj e)

theorem mem_objCheckMsg {v : JVal} {msg m : String}
    (hm : m ∈ (match v with | JVal.obj _ => ([] : List String) | _ => [msg])) : m = msg := by
  cases v with
  | obj o => simp at hm
  | null => simpa using hm
  | bool b => simpa using hm
  | num q => simpa using hm
  | str s => simpa using hm
  | arr xs => simpa using hm

theorem mem_secCheckMsg {v : JVal} {msg m : String}
    (hm : m ∈ (match v with | JVal.arr (_ :: _) => ([] : List String) | _ => [msg])) :
    m = msg := by
  cases v with
  | arr xs => cases xs <;> simpa using hm
  | null => simpa using hm
  | bool b => simpa using hm
  | num q => simpa using hm
  | str s => simpa using hm
  | obj o => simpa using hm

theorem topTypeErrs_heads (a b c d : JVal) :
    ∀ m ∈ topTypeErrs a b c d, strHead m ≠ some 'D' := by
  intro m hm
  unfold topTypeErrs at hm
  rcases List.mem_append.mp hm with hm | hm
  · rcases List.mem_append.mp hm with hm | hm
    · rcases List.mem_append.mp hm with hm | hm
      · rw [mem_objCheckMsg hm]; decide
      · rw [mem_objCheckMsg hm]; decide
    · rw [mem_objCheckMsg hm]; decide
  · rw [mem_secCheckMsg hm]; decide

theorem marginErrs_heads (l : JVal) : ∀ m ∈ marginErrs l, strHead m ≠ some 'D' := by
  intro m hm
  unfold marginErrs at hm
  cases l with
  | obj kvs =>
    cases hv : (JVal.obj kvs).lookupD "margin_cm" (JVal.num 2) with
    | num q =>
      rw [hv] at hm
      simp at hm
      rw [hm.2]
      decide
    | bool b =>
      rw [hv] at hm
      simp at hm
      rw [hm.2]
      decide
    | null => rw [hv] at hm; simp at hm; subst hm; decide
    | str s => rw [hv] at hm; simp at hm; subst hm; decide
    | arr xs => rw [hv] at hm; simp at hm; subst hm; decide
    | obj o => rw [hv] at hm; simp at hm; subst hm; decide
  | null => simp at hm
  | bool b => simp at hm
  | num q => simp at hm
  | str s => simp at hm
  | arr xs => simp at hm

theorem brandingFontCheck_ok_sub {b : JVal} {key msg : String} {bes : List String}
    (h : brandingFontCheck b key msg = .ok bes) : ∀ m ∈ bes, m = msg := by
  intro m hm
  unfold brandingFontCheck at h
  split at h
  · split at h
    · split at h
      · simp only [Except.ok.injEq] at h
        subst h
        simpa using hm
      · simp only [Except.ok.injEq] at h
        subst h
        simp at hm
    · simp at h
  · simp only [Except.ok.injEq] at h
    subst h
    simpa using hm

theorem brandingChecks_ok_heads {b : JVal} {bes : List String}
    (h : brandingChecks b = .ok bes) : ∀ m ∈ bes, strHead m ≠ some 'D' := by
  intro m hm
  unfold brandingChecks at h
  cases b with
  | obj kvs =>
    rcases h1 : brandingFontCheck (JVal.obj kvs) "heading_font"
        "'branding.heading_font' moet een niet-lege string zijn." with k1 | e1
    · rw [h1] at h; simp at h
    · rw [h1] at h
      rcases h2 : brandingFontCheck (JVal.obj kvs) "body_font"
          "'branding.body_font' moet een niet-lege string zijn." with k2 | e2
      · rw [h2] at h; simp at h
      · rw [h2] at h
        rcases h3 : brandingFontCheck (JVal.obj kvs) "logo_path"
            "'branding.logo_path' moet een niet-lege string zijn." with k3 | e3
        · rw [h3] at h; simp at h
        · rw [h3] at h
          simp only [Except.ok.injEq] at h
          subst h
          rcases List.mem_append.mp hm with hm | hm
          · rcases List.mem_append.mp hm with hm | hm
            · rcases List.mem_append.mp hm with hm | hm
              · simp at hm
                obtain ⟨ck, hck, rfl⟩ := hm
                exact headNe_D (strHead_append _ (rfl : strHead "'branding." = some '\'')) (by decide) _
              · rw [brandingFontCheck_ok_sub h1 m hm]; decide
            · rw [brandingFontCheck_ok_sub h2 m hm]; decide
          · rw [brandingFontCheck_ok_sub h3 m hm]; decide
  | null => simp only [Except.ok.injEq] at h; subst h; simp at hm
  | bool bb => simp only [Except.ok.injEq] at h; subst h; simp at hm
  | num q => simp only [Except.ok.injEq] at h; subst h; simp at hm
  | str s => simp only [Except.ok.injEq] at h; subst h; simp at hm
  | arr xs => simp only [Except.ok.injEq] at h; subst h; simp at hm

/-- C1 (amended): for every specification in which the id `x` reaches the
shared-set uniqueness check more than once (`idOccurrences` counts exactly
those arrivals), and whose branding block does not abort validation with a
Python `KeyError`, `validate_spec` raises a `SpecValidationError` whose
message list contains exactly one duplicate-id error naming `x` for each
occurrence beyond the first — the first occurrence contributes none. -/
theorem duplicate_ids_reported_once_each (spec : JVal) (x : String)
    (hocc : 1 < cnt x (idOccurrences spec))
    (hbr : brandingOk (spec.lookupD "branding" .null) = true) :
    isSpecErrs (validateSpec spec) = true ∧
      dupCnt x (vErrorMsgs (validateSpec spec)) = cnt x (idOccurrences spec) - 1 := by
  cases spec with
  | obj kvs =>
    by_cases hall : (topLevelKeys.all (fun k => (JVal.obj kvs).hasKey k)) = true
    · cases hsec : (JVal.obj kvs).lookupD "sections" .null with
      | arr ss =>
        have hoccs : idOccurrences (JVal.obj kvs) = sectionsOccs ss := by
          simp [idOccurrences, hall, hsec]
        have h4 : ((JVal.obj kvs).hasKey "metadata" = true) ∧
            ((JVal.obj kvs).hasKey "branding" = true) ∧
            ((JVal.obj kvs).hasKey "document_layout" = true) ∧
            ((JVal.obj kvs).hasKey "sections" = true) := by
          simpa [topLevelKeys] using hall
        have hmiss : topLevelKeys.filter (fun k => !(JVal.obj kvs).hasKey k) = [] := by
          simp [topLevelKeys, h4.1, h4.2.1, h4.2.2.1, h4.2.2.2]
        rcases hbc : brandingChecks ((JVal.obj kvs).lookupD "branding" .null) with k | bes
        · exfalso
          unfold brandingOk at hbr
          rw [hbc] at hbr
          simp at hbr
        · have hrel := valSections_occRel ss 1 []
          have hcnt : dupCnt x (valSections 1 [] ss).1 = cnt x (sectionsOccs ss) - 1 := by
            simpa using hrel.2 x
          have hAll : validateSpec (JVal.obj kvs) =
              (if (topTypeErrs ((JVal.obj kvs).lookupD "metadata" JVal.null)
                    ((JVal.obj kvs).lookupD "branding" JVal.null)
                    ((JVal.obj kvs).lookupD "document_layout" JVal.null)
                    (JVal.arr ss) ++
                  marginErrs ((JVal.obj kvs).lookupD "document_layout" JVal.null) ++
                  bes ++ (valSections 1 [] ss).1) = [] then Except.ok ()
               else Except.error (VError.vErrors
                 (topTypeErrs ((JVal.obj kvs).lookupD "metadata" JVal.null)
                    ((JVal.obj kvs).lookupD "branding" JVal.null)
                    ((JVal.obj kvs).lookupD "document_layout" JVal.null)
                    (JVal.arr ss) ++
                  marginErrs ((JVal.obj kvs).lookupD "document_layout" JVal.null) ++
                  bes ++ (valSections 1 [] ss).1))) := by
            unfold validateSpec
            simp [hmiss, hsec, hbc]
          have hdup : dupCnt x
              (topTypeErrs ((JVal.obj kvs).lookupD "metadata" JVal.null)
                ((JVal.obj kvs).lookupD "branding" JVal.null)
                ((JVal.obj kvs).lookupD "document_layout" JVal.null)
                (JVal.arr ss) ++
               marginErrs ((JVal.obj kvs).lookupD "document_layout" JVal.null) ++
               bes ++ (valSections 1 [] ss).1) = cnt x (sectionsOccs ss) - 1 := by
            rw [dupCnt_append, dupCnt_append, dupCnt_append]
            rw [dupCnt_eq_zero_of_heads x _ (topTypeErrs_heads _ _ _ _),
              dupCnt_eq_zero_of_heads x _ (marginErrs_heads _),
              dupCnt_eq_zero_of_heads x _ (brandingChecks_ok_heads hbc), hcnt]
            omega
          have hposs : 0 < cnt x (sectionsOccs ss) - 1 := by
            rw [hoccs] at hocc
            omega
          have hpos : 0 < dupCnt x
              (topTypeErrs ((JVal.obj kvs).lookupD "metadata" JVal.null)
                ((JVal.obj kvs).lookupD "branding" JVal.null)
                ((JVal.obj kvs).lookupD "document_layout" JVal.null)
                (JVal.arr ss) ++
               marginErrs ((JVal.obj kvs).lookupD "document_layout" JVal.null) ++
               bes ++ (valSections 1 [] ss).1) := by
            rw [hdup]
            exact hposs
          have hne := ne_nil_of_dupCnt_pos hpos
          rw [hAll, if_neg hne]
          refine ⟨rfl, ?_⟩
          show dupCnt x
              (topTypeErrs ((JVal.obj kvs).lookupD "metadata" JVal.null)
                ((JVal.obj kvs).lookupD "branding" JVal.null)
                ((JVal.obj kvs).lookupD "document_layout" JVal.null)
                (JVal.arr ss) ++
               marginErrs ((JVal.obj kvs).lookupD "document_layout" JVal.null) ++
               bes ++ (valSections 1 [] ss).1) = cnt x (idOccurrences (JVal.obj kvs)) - 1
          rw [hoccs, hdup]
      | null => simp [idOccurrences, hall, hsec, cnt] at hocc
      | bool b => simp [idOccurrences, hall, hsec, cnt] at hocc
      | num q => simp [idOccurrences, hall, hsec, cnt] at hocc
      | str s => simp [idOccurrences, hall, hsec, cnt] at hocc
      | obj o => simp [idOccurrences, hall, hsec, cnt] at hocc
    · simp [idOccurrences, hall, cnt] at hocc
  | null => simp [idOccurrences, cnt] at hocc
  | bool b => simp [idOccurrences, cnt] at hocc
  | num q => simp [idOccurrences, cnt] at hocc
  | str s => simp [idOccurrences, cnt] at hocc
  | arr xs => simp [idOccurrences, cnt] at hocc

/-- Witness for C1 at a concrete specification with two fields sharing the
id `"x"` and a fully valid branding block: exactly one duplicate-id message
for the two occurrences. -/
theorem duplicate_ids_reported_once_each_witness :
    isSpecErrs (validateSpec specDupOk) = true ∧
      dupCnt "x" (vErrorMsgs (validateSpec specDupOk)) =
        cnt "x" (idOccurrences specDupOk) - 1 :=
  duplicate_ids_reported_once_each specDupOk "x" (by decide) (by decide)

/-- C1 counterexample: a specification with the id `"x"` occurring twice but
a branding dict lacking `heading_font` makes `validate_spec` raise a Python
`KeyError` instead of a `SpecValidationError` — no duplicate-id error list is
produced, refuting the claim as universally stated. -/
theorem duplicate_ids_masked_by_branding_keyerror :
    validateSpec specDupKeyErr = .error (.keyErr "heading_font") ∧
      1 < cnt "x" (idOccurrences specDupKeyErr) :=
  ⟨rfl, by decide⟩
